import Mathlib

/-!
Verification of the Bid-Finder ingestion-and-relevance pipeline.

Shallow embedding of the Python sources (models.py, scorer.py, scrapers.py,
main.py, app.py, config.py).  Strings are manipulated as lists of
characters; Python machine floats holding dollar amounts are modelled as
rationals; Python `or` on a possibly-falsy value is modelled explicitly.
-/

/-! ## Basic string helpers (Python semantics on lists of characters) -/

/-- Python str.lower, modelled for ASCII characters (Char.toLower lowers
exactly the ASCII uppercase letters; the few non-ASCII characters appearing
in the configuration data are already lowercase). -/
def pyCharLower (c : Char) : Char := c.toLower

/-- Lowercase a character list (Python s.lower()). -/
def lowerL (l : List Char) : List Char := l.map pyCharLower

/-- Boolean list-prefix test. -/
def isPrefixOfB : List Char → List Char → Bool
  | [], _ => true
  | _ :: _, [] => false
  | a :: as, b :: bs => a == b && isPrefixOfB as bs

/-- Python substring membership: needle in hay. -/
def pyIn (needle : List Char) : List Char → Bool
  | [] => needle.isEmpty
  | c :: t => isPrefixOfB needle (c :: t) || pyIn needle t

/-- Lexicographic strict order on character lists by code point.  SQLite
compares TEXT values with memcmp on their UTF-8 bytes, and UTF-8 byte
order coincides with code-point order. -/
def lexLt : List Char → List Char → Bool
  | [], [] => false
  | [], _ :: _ => true
  | _ :: _, [] => false
  | a :: as, b :: bs => if a == b then lexLt as bs else decide (a.toNat < b.toNat)

/-- Python str.replace(pat, "") for a non-empty pattern: remove every
(left-to-right, non-overlapping) occurrence of pat.  Structured with an
explicit fuel argument (each step consumes at least one character, so fuel
equal to the list length always suffices) to keep the definition
kernel-reducible. -/
def removeAllSubAux (pat : List Char) : Nat → List Char → List Char
  | 0, _ => []
  | _ + 1, [] => []
  | f + 1, c :: t =>
    if isPrefixOfB pat (c :: t) && !pat.isEmpty then
      removeAllSubAux pat f (List.drop (pat.length - 1) t)
    else
      c :: removeAllSubAux pat f t

def removeAllSub (pat : List Char) (s : List Char) : List Char :=
  removeAllSubAux pat s.length s

/-- The ASCII whitespace characters recognised by Python str.strip and by
the regex class backslash-s on ASCII text (space, tab, newline, vertical
tab, form feed, carriage return). -/
def pyIsSpace (c : Char) : Bool :=
  c == ' ' || c == Char.ofNat 9 || c == Char.ofNat 10 || c == Char.ofNat 11 ||
  c == Char.ofNat 12 || c == Char.ofNat 13

/-- Python str.strip(): drop whitespace from both ends. -/
def pyStrip (l : List Char) : List Char :=
  ((l.dropWhile pyIsSpace).reverse.dropWhile pyIsSpace).reverse

/-! ## Configuration data (config.py) -/

/-- config.py KEYWORDS["waterproofing"]. -/
def KEYWORDS_waterproofing : List String := [
  "waterproofing", "building envelope", "caulking", "leak repair",
  "sealant replacement", "moisture remediation", "envelope repair", "foundation waterproofing",
  "roof leak", "moisture barrier", "dampproofing", "flashing repair",
  "drainage system", "weatherproofing", "foundation repair", "water intrusion",
  "water infiltration", "below grade waterproofing", "exterior wall coating", "plaza deck waterproofing",
  "parking deck coating", "joint sealant", "elastomeric coating", "membrane",
  "cementitious coating", "crystalline waterproofing", "traffic coating", "polyurethane coating",
  "sheet membrane", "liquid membrane", "hot rubberized asphalt", "bentonite",
  "protective coating", "deck coating", "epoxy injection", "crack injection",
  "expansion joint", "control joint", "vapor barrier", "water management",
  "negative-side waterproofing", "positive-side waterproofing", "curtain wall repair", "window leak",
  "below-slab drainage", "hydrostatic pressure", "wet basement", "moisture control",
  "moisture mitigation", "water seepage", "waterstop", "water stop",
  "basement waterproofing", "foundation sealing", "building envelope restoration", "envelope restoration",
  "exterior caulking", "re-caulking", "recaulking", "joint seal",
  "joint repair", "garage deck repair", "tunnel waterproofing", "tank lining",
  "water remediation"]

/-- config.py KEYWORDS["tenant_improvements"]. -/
def KEYWORDS_tenant_improvements : List String := [
  "tenant improvement", "interior renovation", "interior alterations", "office renovation",
  "leasehold improvement", "commercial renovation", "interior construction", "restroom renovation",
  "tenant buildout", "interior fit-out", "interior alteration", "interior modifications",
  "office remodel", "suite renovation", "commercial interior", "tenant build-out",
  "TI project", "TI buildout", "office buildout", "space renovation",
  "commercial upfit", "space buildout", "workspace renovation", "workspace buildout",
  "retail buildout", "restaurant buildout", "medical office buildout", "dental office buildout",
  "law office renovation", "fit-up", "upfit", "build out",
  "office alterations", "demising wall", "drop ceiling", "suspended ceiling",
  "partition wall", "commercial flooring", "commercial painting", "millwork",
  "cabinetry", "reception area", "conference room renovation", "break room",
  "ADA restroom", "interior finish", "finish work", "laboratory renovation",
  "laboratory buildout", "clinic renovation", "clinic buildout", "classroom renovation",
  "locker room renovation", "kitchen renovation", "cafeteria renovation", "commercial plumbing",
  "commercial electrical", "data cabling", "access flooring", "storefront",
  "signage"]

/-- config.py KEYWORDS["general_contracting"]. -/
def KEYWORDS_general_contracting : List String := [
  "building renovation", "facility renovation", "construction services", "building repair",
  "concrete repair", "roof repair", "general construction", "building maintenance",
  "facility improvement", "commercial construction", "facility repair", "building services",
  "repair services", "general contractor", "building alteration", "ADA compliance",
  "HVAC replacement", "façade repair", "facade repair", "door replacement",
  "flooring replacement", "painting contractor", "demolition", "site work",
  "commercial remodel", "structural repair", "masonry repair", "brick repair",
  "stucco repair", "exterior renovation", "window replacement", "curtain wall",
  "storefront replacement", "canopy", "awning", "loading dock",
  "parking garage repair", "elevator modernization", "interior demolition", "selective demolition",
  "abatement", "hazmat", "asbestos", "lead paint",
  "fire damage", "water damage", "storm damage", "emergency repair",
  "preventive maintenance", "capital improvement", "deferred maintenance", "commercial roofing",
  "TPO", "EPDM", "standing seam", "roof replacement",
  "turnkey", "design-build", "CM at risk", "construction management",
  "metal building", "pre-engineered building", "sitework", "grading",
  "paving", "general construction services", "facility upgrade", "facility modification",
  "building modification", "repair and renovation", "miscellaneous construction", "minor repair",
  "major repair", "life safety", "fire alarm", "fire suppression",
  "sprinkler", "accessibility", "ADA upgrade", "ADA modification",
  "concrete restoration", "spall repair", "expansion joint repair", "caulk",
  "sealant", "power washing", "pressure washing", "exterior cleaning",
  "framing", "insulation", "metal stud"]

/-- config.py KEYWORDS["government"]. -/
def KEYWORDS_government : List String := [
  "IDIQ", "task order", "construction services", "facility maintenance",
  "job order contract", "design build", "operations and maintenance", "repair and alteration",
  "solicitation", "RFP", "IFB", "federal building",
  "government facility", "military construction", "small business set-aside", "JOC",
  "8a set-aside", "SDVOSB", "HUBZone", "maintenance repair",
  "BPA", "blanket purchase agreement", "GSA schedule", "indefinite delivery",
  "indefinite quantity", "requirements contract", "WOSB", "EDWOSB",
  "service-disabled veteran", "RFQ", "invitation for bid", "request for proposal",
  "request for quotation", "sources sought", "presolicitation", "pre-solicitation",
  "base operations", "O&M", "minor construction", "sustainment restoration modernization",
  "SRM", "MILCON", "MATOC", "SATOC",
  "MACC", "military base", "VA hospital", "federal courthouse",
  "post office", "government housing", "GSA building", "guard station",
  "barracks", "NAVFAC", "USACE", "Army Corps",
  "GSA"]

/-- config.py KEYWORDS: project-type keyword lists, in declaration order. -/
def KEYWORDS : List (String × List String) := [
  ("waterproofing", KEYWORDS_waterproofing),
  ("tenant_improvements", KEYWORDS_tenant_improvements),
  ("general_contracting", KEYWORDS_general_contracting),
  ("government", KEYWORDS_government)]

/-- config.py LOCATIONS["counties"]. -/
def LOCATIONS_counties : List String := [
  "Arlington County", "Fairfax County", "Loudoun County", "Prince William County",
  "Fauquier County", "Stafford County", "Spotsylvania County", "Culpeper County",
  "Clarke County", "Warren County", "Rappahannock County", "King George County",
  "Montgomery County", ("Prince George" ++ String.singleton (Char.ofNat 39) ++ "s County"), "Howard County", "Anne Arundel County",
  "Frederick County", "Charles County", "Calvert County"]

/-- config.py LOCATIONS["cities"]. -/
def LOCATIONS_cities : List String := [
  "Falls Church", "Alexandria", "Fairfax", "Manassas",
  "Manassas Park", "Herndon", "Reston", "Vienna",
  "McLean", "Tysons", "Ashburn", "Leesburg",
  "Sterling", "Centreville", "Chantilly", "Springfield",
  "Woodbridge", "Annandale", "Burke", "Dumfries",
  "Warrenton", "Purcellville", "Fredericksburg", "Winchester",
  "Front Royal", "Culpeper", "Bethesda", "Rockville",
  "Silver Spring", "Gaithersburg", "Germantown", "Bowie",
  "College Park", "Laurel", "Greenbelt", "Takoma Park",
  "Hyattsville", "Frederick", "Waldorf", "La Plata",
  "Columbia", "Ellicott City", "Annapolis", "Glen Burnie"]

/-- config.py LOCATIONS["zip_prefixes"]. -/
def LOCATIONS_zip_prefixes : List String := [
  "200", "201", "207", "208", "209", "220", "221", "222", "223", "226"]

/-- config.py SCORING, and COMPANY["project_range"]: scoring caps and the
target project value range (dollar amounts as rationals). -/
def SCORING_keyword_match : Int := 30

def SCORING_location_match : Int := 25

def SCORING_budget_in_range : Int := 20

def SCORING_deadline_buffer : Int := 15

def SCORING_set_aside_match : Int := 10

def COMPANY_project_range_min : Rat := 50000

def COMPANY_project_range_max : Rat := 2500000

/-! ## Data model (models.py BidOpportunity) -/

/-- models.py BidOpportunity: one bid/project opportunity.  Python field
types: str fields are String; the three JSON-backed list fields hold the
strings this pipeline actually stores in them; the nullable float dollar
values are Option Rat; relevance_score is Int. -/
structure BidOpportunity where
  title : String
  source : String
  source_url : String
  source_id : String := ""
  description : String := ""
  project_type : String := ""
  naics_code : String := ""
  category_tags : List String := []
  location_city : String := ""
  location_county : String := ""
  location_state : String := "VA"
  location_zip : String := ""
  location_address : String := ""
  estimated_value_min : Option Rat := none
  estimated_value_max : Option Rat := none
  budget_display : String := ""
  posted_date : String := ""
  due_date : String := ""
  pre_bid_date : String := ""
  project_start_date : String := ""
  project_end_date : String := ""
  contact_name : String := ""
  contact_email : String := ""
  contact_phone : String := ""
  agency_name : String := ""
  set_aside : String := ""
  contract_type : String := ""
  solicitation_type : String := ""
  relevance_score : Int := 0
  keyword_matches : List String := []
  scraped_at : String := ""
  status : String := "new"
  notes : String := ""
  attachments : List String := []
deriving DecidableEq

/-! ## Dates (Python datetime fragments used by scorer.py and models.py) -/

/-- A Python datetime.date value as a (year, month, day) triple. -/
structure PyDate where
  year : Nat
  month : Nat
  day : Nat
deriving DecidableEq

/-- Gregorian leap-year rule (Python calendar.isleap). -/
def isLeapYear (y : Nat) : Bool := y % 4 == 0 && (y % 100 != 0 || y % 400 == 0)

/-- Days in a month of a given year. -/
def daysInMonth (y m : Nat) : Nat :=
  if m == 2 then (if isLeapYear y then 29 else 28)
  else if m == 4 || m == 6 || m == 9 || m == 11 then 30
  else 31

/-- Validity of a (year, month, day) triple as a Python datetime.date
(year restricted to MINYEAR..MAXYEAR = 1..9999). -/
def dateValid (d : PyDate) : Bool :=
  1 ≤ d.year && d.year ≤ 9999 && 1 ≤ d.month && d.month ≤ 12 &&
  1 ≤ d.day && d.day ≤ daysInMonth d.year d.month

/-- Days in the months strictly before month m of year y. -/
def daysBeforeMonth (y m : Nat) : Nat :=
  (List.range (m - 1)).foldl (fun acc i => acc + daysInMonth y (i + 1)) 0

/-- Python date.toordinal(): day number with 0001-01-01 as day 1. -/
def dateOrdinal (d : PyDate) : Int :=
  (365 * (d.year - 1) + (d.year - 1) / 4 - (d.year - 1) / 100 + (d.year - 1) / 400
    + daysBeforeMonth d.year d.month + d.day : Nat)

/-- Strict chronological order on date triples (Python date comparison:
lexicographic on (year, month, day)). -/
def dateLt (a b : PyDate) : Bool :=
  a.year < b.year || (a.year == b.year && (a.month < b.month ||
    (a.month == b.month && a.day < b.day)))

/-- A Python datetime.now() instant: its date's ordinal plus the number of
seconds already elapsed in the current day (0 ≤ secondsIntoDay < 86400). -/
structure PyDateTime where
  ordinal : Int
  secondsIntoDay : Nat
deriving DecidableEq

/-! ### strptime fragments

CPython strptime matches %m and %d against one or two digits (the value
then validated against the calendar), %Y against exactly four digits, and
requires the whole input to be consumed. -/

/-- Take up to n leading ASCII digits. -/
def takeDigits : Nat → List Char → List Char × List Char
  | 0, s => ([], s)
  | _ + 1, [] => ([], [])
  | n + 1, c :: t =>
    if c.isDigit then
      let (ds, r) := takeDigits n t
      (c :: ds, r)
    else ([], c :: t)

/-- Numeric value of a digit list. -/
def digitsToNat (l : List Char) : Nat := l.foldl (fun n c => 10 * n + (c.toNat - 48)) 0

/-- strptime(s, "%m<sep>%d<sep>%Y"): one-or-two-digit month and day, a
separator character, an exactly-four-digit year, whole input consumed,
calendar-validated. -/
def parseMDY (sep : Char) (s : List Char) : Option PyDate :=
  let (mds, r1) := takeDigits 2 s
  if mds.isEmpty then none else
  match r1 with
  | c1 :: r2 =>
    if c1 != sep then none else
    let (dds, r3) := takeDigits 2 r2
    if dds.isEmpty then none else
    match r3 with
    | c2 :: r4 =>
      if c2 != sep then none else
      let (yds, r5) := takeDigits 4 r4
      if yds.length != 4 || !r5.isEmpty then none else
      let d : PyDate := ⟨digitsToNat yds, digitsToNat mds, digitsToNat dds⟩
      if dateValid d then some d else none
    | [] => none
  | [] => none

/-- strptime(s, "%Y-%m-%d"): exactly-four-digit year, dashes, one-or-two
digit month and day, whole input consumed, calendar-validated. -/
def parseYMD (s : List Char) : Option PyDate :=
  let (yds, r1) := takeDigits 4 s
  if yds.length != 4 then none else
  match r1 with
  | c1 :: r2 =>
    if c1 != '-' then none else
    let (mds, r3) := takeDigits 2 r2
    if mds.isEmpty then none else
    match r3 with
    | c2 :: r4 =>
      if c2 != '-' then none else
      let (dds, r5) := takeDigits 2 r4
      if dds.isEmpty || !r5.isEmpty then none else
      let d : PyDate := ⟨digitsToNat yds, digitsToNat mds, digitsToNat dds⟩
      if dateValid d then some d else none
    | [] => none
  | [] => none

/-- The due-date parse attempted by scorer.py _score_deadline, format
"%Y-%m-%dT" optionally followed by a one-or-two-digit hour (the surviving
truncations of "%Y-%m-%dT%H:%M:%S").  Returns the date together with the
parsed hour (0 when the truncation carries no %H). -/
def parseYMDT (withHour : Bool) (s : List Char) : Option (PyDate × Nat) :=
  let (yds, r1) := takeDigits 4 s
  if yds.length != 4 then none else
  match r1 with
  | '-' :: r2 =>
    let (mds, r3) := takeDigits 2 r2
    if mds.isEmpty then none else
    match r3 with
    | '-' :: r4 =>
      let (dds, r5) := takeDigits 2 r4
      if dds.isEmpty then none else
      match r5 with
      | 'T' :: r6 =>
        let hour :=
          if withHour then
            let (hds, r7) := takeDigits 2 r6
            if !hds.isEmpty && r7.isEmpty && digitsToNat hds ≤ 23 then
              some (digitsToNat hds)
            else none
          else if r6.isEmpty then some 0 else none
        match hour with
        | none => none
        | some h =>
          let d : PyDate := ⟨digitsToNat yds, digitsToNat mds, digitsToNat dds⟩
          if dateValid d then some (d, h) else none
      | _ => none
    | _ => none
  | _ => none

/-- strptime(s, "%m") on a two-character string: CPython %m matches one or
two digits (regex 1[0-2]|0[1-9]|[1-9]) and the whole input must be
consumed, so exactly the valid two-digit months 01..12 parse; the
defaults give datetime(1900, m, 1). -/
def parseM (s : List Char) : Option PyDate :=
  let (mds, r1) := takeDigits 2 s
  if mds.length != 2 || !r1.isEmpty then none else
  let d : PyDate := ⟨1900, digitsToNat mds, 1⟩
  if dateValid d then some d else none

/-- strptime(s, "%m<sep>") on a three-character string: a two-digit month
followed by the separator (a one-digit month would leave the trailing
character unconverted); defaults give datetime(1900, m, 1). -/
def parseMSep (sep : Char) (s : List Char) : Option PyDate :=
  let (mds, r1) := takeDigits 2 s
  if mds.length != 2 then none else
  match r1 with
  | [c] =>
    if c != sep then none else
    let d : PyDate := ⟨1900, digitsToNat mds, 1⟩
    if dateValid d then some d else none
  | _ => none

/-- strptime(s, "%m<sep>%d") on a five-character string: only the
two-digit-month, separator, two-digit-day shape can consume all five
characters (one-digit fields leave a remainder, which CPython rejects);
the value is calendar-validated as datetime(1900, m, d). -/
def parseMD (sep : Char) (s : List Char) : Option PyDate :=
  let (mds, r1) := takeDigits 2 s
  if mds.length != 2 then none else
  match r1 with
  | c1 :: r2 =>
    if c1 != sep then none else
    let (dds, r3) := takeDigits 2 r2
    if dds.length != 2 || !r3.isEmpty then none else
    let d : PyDate := ⟨1900, digitsToNat mds, digitsToNat dds⟩
    if dateValid d then some d else none
  | [] => none

/-- strptime(s, "%m<sep>%d<sep>") on a six-character string: two-digit
month, separator, two-digit day, trailing separator, calendar-validated
as datetime(1900, m, d). -/
def parseMDSep (sep : Char) (s : List Char) : Option PyDate :=
  let (mds, r1) := takeDigits 2 s
  if mds.length != 2 then none else
  match r1 with
  | c1 :: r2 =>
    if c1 != sep then none else
    let (dds, r3) := takeDigits 2 r2
    if dds.length != 2 then none else
    match r3 with
    | [c2] =>
      if c2 != sep then none else
      let d : PyDate := ⟨1900, digitsToNat mds, digitsToNat dds⟩
      if dateValid d then some d else none
    | _ => none
  | [] => none

/-- A parsed due instant: the date at the given hour (minute and second
are 0 in every reachable truncation). -/
def dtOfDate (d : PyDate) (hour : Nat) : PyDateTime :=
  ⟨dateOrdinal d, hour * 3600⟩

/-- scorer.py _score_deadline date parsing: each format fmt in
["%Y-%m-%d", "%m/%d/%Y", "%m-%d-%Y", "%Y-%m-%dT%H:%M:%S"] is truncated to
fmt[:min(len(fmt), len(due_date))] and tried against due_date[:10].
Writing L for len(due_date):
* L = 0: every truncation is the empty format, and strptime("", "")
  succeeds with all defaults, datetime(1900, 1, 1) (score_deadline never
  reaches this case: the falsy check returns 0 first);
* L = 1: every truncation is a stray "%", which raises;
* L = 2: "%Y" needs exactly four digits so fails on two characters, and
  "%m" parses the two-digit months (year 1900 defaults);
* L = 3: "%Y-" needs at least five characters; "%m/" and then "%m-" parse;
* L = 4 and L = 7: every truncation ends in a stray "%" and raises;
* L = 5: "%Y-%m" needs at least six characters; "%m/%d" and "%m-%d" parse;
* L = 6: "%Y-%m-" needs at least seven characters; "%m/%d/" and "%m-%d-"
  parse;
* L ≥ 8: the three eight-character formats are complete and run on
  due_date[:10]; the fourth format's truncations succeed only at L = 9
  ("%Y-%m-%dT" against "YYYY-M-DT") and L = 11 ("%Y-%m-%dT%H" against the
  first ten characters "YYYY-M-DTH", parsing a one-digit hour); at L = 10
  and every L ≥ 12 the truncation either ends in a stray "%" or needs
  more than the ten available characters.
The result carries the parsed hour so that (due - now).days can use it. -/
def parse_due_date (due : List Char) : Option PyDateTime :=
  let s10 := due.take 10
  if due.isEmpty then some (dtOfDate ⟨1900, 1, 1⟩ 0)
  else if due.length == 2 then (parseM due).map (fun d => dtOfDate d 0)
  else if due.length == 3 then
    match parseMSep '/' due with
    | some d => some (dtOfDate d 0)
    | none => (parseMSep '-' due).map (fun d => dtOfDate d 0)
  else if due.length == 5 then
    match parseMD '/' due with
    | some d => some (dtOfDate d 0)
    | none => (parseMD '-' due).map (fun d => dtOfDate d 0)
  else if due.length == 6 then
    match parseMDSep '/' due with
    | some d => some (dtOfDate d 0)
    | none => (parseMDSep '-' due).map (fun d => dtOfDate d 0)
  else if due.length < 8 then none
  else match parseYMD s10 with
  | some d => some (dtOfDate d 0)
  | none =>
    match parseMDY '/' s10 with
    | some d => some (dtOfDate d 0)
    | none =>
      match parseMDY '-' s10 with
      | some d => some (dtOfDate d 0)
      | none =>
        if due.length == 9 then
          (parseYMDT false s10).map (fun p => dtOfDate p.1 p.2)
        else if due.length == 11 then
          (parseYMDT true s10).map (fun p => dtOfDate p.1 p.2)
        else none

namespace RelevanceScorer

/-- scorer.py line 30: combined title and description, lowercased. -/
def combined (bid : BidOpportunity) : List Char :=
  lowerL (bid.title.data ++ ' ' :: bid.description.data)

/-- One keyword's case-insensitive substring test against a text. -/
def kwHit (text : List Char) (kw : String) : Bool := pyIn (lowerL kw.data) text

/-- scorer.py lines 36-39: rescan of every configured keyword over the
combined text, counting hits. -/
def rescanCount (text : List Char) : Nat :=
  (KEYWORDS.map (fun p => (p.2.filter (kwHit text)).length)).sum

/-- scorer.py lines 33-39: stored keyword_matches count, rescanning when
no matches are stored. -/
def match_count (bid : BidOpportunity) : Nat :=
  if bid.keyword_matches.length = 0 then rescanCount (combined bid)
  else bid.keyword_matches.length

/-- scorer.py lines 45-49: +8 boost when any waterproofing keyword occurs. -/
def waterproofing_boost (bid : BidOpportunity) : Int :=
  if KEYWORDS_waterproofing.any (kwHit (combined bid)) then 8 else 0

/-- scorer.py _score_keywords (max 30 pts). -/
def score_keywords (bid : BidOpportunity) : Int :=
  if match_count bid = 0 then 0
  else
    let base : Int :=
      if match_count bid = 1 then 3
      else if match_count bid = 2 then 8
      else min ((match_count bid : Int) * 4) (SCORING_keyword_match - 5)
    min (base + waterproofing_boost bid) SCORING_keyword_match

/-- scorer.py _score_location (max 25 pts). -/
def score_location (bid : BidOpportunity) : Int :=
  if !bid.location_city.data.isEmpty &&
      LOCATIONS_cities.any
        (fun city => pyIn (lowerL city.data) (lowerL bid.location_city.data)) then
    SCORING_location_match
  else if !bid.location_county.data.isEmpty &&
      LOCATIONS_counties.any
        (fun county => pyIn (removeAllSub (" county".data) (lowerL county.data))
          (lowerL bid.location_county.data)) then
    SCORING_location_match
  else if !bid.location_zip.data.isEmpty &&
      LOCATIONS_zip_prefixes.any
        (fun p => isPrefixOfB p.data bid.location_zip.data) then
    SCORING_location_match - 3
  else if bid.location_state == "VA" || bid.location_state == "Virginia" then 8
  else if bid.location_state == "DC" || bid.location_state == "MD" ||
      bid.location_state == "Maryland" then 8
  else 0

/-- Python `x or d` on a nullable number: None and 0.0 are falsy. -/
def pyOrRat : Option Rat → Rat → Rat
  | none, d => d
  | some v, d => if v == 0 then d else v

/-- scorer.py _score_budget (max 20 pts).  The literal partial credits are
int(20 * 0.7) = 14, int(20 * 0.3) = 6 and int(20 * 0.4) = 8 (each product
rounds to the exact integer in IEEE double arithmetic). -/
def score_budget (bid : BidOpportunity) : Int :=
  if bid.estimated_value_min == none && bid.estimated_value_max == none then 0
  else
    let val_min := pyOrRat bid.estimated_value_min 0
    let val_max := pyOrRat bid.estimated_value_max val_min
    if val_min ≥ COMPANY_project_range_min && val_max ≤ COMPANY_project_range_max then
      SCORING_budget_in_range
    else if val_min ≤ COMPANY_project_range_max && val_max ≥ COMPANY_project_range_min then 14
    else if val_max < COMPANY_project_range_min && val_max > 20000 then 6
    else if val_min > COMPANY_project_range_max && val_min < 5000000 then 8
    else 0

/-- days_left is the Python timedelta.days of (due - now): both instants
measured in seconds since the epoch of ordinal 0, the difference
floor-divided by 86400 (timedelta normalizes with floor division, so
.days floors).  due carries the hour parsed by the "%Y-%m-%dT%H"
truncation; every other branch parses to midnight. -/
def days_left (now : PyDateTime) (due : PyDateTime) : Int :=
  Int.fdiv ((due.ordinal * 86400 + (due.secondsIntoDay : Int)) -
    (now.ordinal * 86400 + (now.secondsIntoDay : Int))) 86400

/-- scorer.py _score_deadline (max 15 pts).  The literal partial credits
are int(15 * 0.5) = 7, int(15 * 0.75) = 11 and int(15 * 0.9) = 13. -/
def score_deadline (now : PyDateTime) (bid : BidOpportunity) : Int :=
  if bid.due_date.data.isEmpty then 0
  else
    match parse_due_date bid.due_date.data with
    | none => 0
    | some due =>
      if days_left now due < 0 then 0
      else if days_left now due < 3 then 3
      else if days_left now due < 7 then 7
      else if days_left now due < 14 then 11
      else if days_left now due < 30 then SCORING_deadline_buffer
      else 13

/-- scorer.py _score_set_aside (max 10 pts); 10 // 2 = 5 for full-and-open. -/
def score_set_aside (bid : BidOpportunity) : Int :=
  if bid.set_aside.data.isEmpty then 0
  else
    let sa := lowerL bid.set_aside.data
    if (["small business", "8(a)", "hubzone", "sdvosb", "wosb", "total small"] :
        List String).any (fun f => pyIn f.data sa) then
      SCORING_set_aside_match
    else if pyIn ("full and open".data) sa || pyIn ("unrestricted".data) sa then
      SCORING_set_aside_match / 2
    else 2

/-- scorer.py RelevanceScorer.score: sum of the five sub-scores, capped
at 100. -/
def score (now : PyDateTime) (bid : BidOpportunity) : Int :=
  min (score_keywords bid + score_location bid + score_budget bid +
    score_deadline now bid + score_set_aside bid) 100

end RelevanceScorer

/-! ## C1: score bounds -/

theorem score_keywords_bounds (bid : BidOpportunity) :
    0 ≤ RelevanceScorer.score_keywords bid ∧ RelevanceScorer.score_keywords bid ≤ 30 := by
  unfold RelevanceScorer.score_keywords RelevanceScorer.waterproofing_boost
    SCORING_keyword_match
  dsimp only
  split_ifs <;> omega

theorem score_location_bounds (bid : BidOpportunity) :
    0 ≤ RelevanceScorer.score_location bid ∧ RelevanceScorer.score_location bid ≤ 25 := by
  unfold RelevanceScorer.score_location SCORING_location_match
  split_ifs <;> omega

theorem score_budget_bounds (bid : BidOpportunity) :
    0 ≤ RelevanceScorer.score_budget bid ∧ RelevanceScorer.score_budget bid ≤ 20 := by
  unfold RelevanceScorer.score_budget SCORING_budget_in_range
  dsimp only
  split_ifs <;> omega

theorem score_deadline_bounds (now : PyDateTime) (bid : BidOpportunity) :
    0 ≤ RelevanceScorer.score_deadline now bid ∧
      RelevanceScorer.score_deadline now bid ≤ 15 := by
  unfold RelevanceScorer.score_deadline SCORING_deadline_buffer
  split
  · omega
  · split
    · omega
    · split_ifs <;> omega

theorem score_set_aside_bounds (bid : BidOpportunity) :
    0 ≤ RelevanceScorer.score_set_aside bid ∧
      RelevanceScorer.score_set_aside bid ≤ 10 := by
  unfold RelevanceScorer.score_set_aside SCORING_set_aside_match
  dsimp only
  split_ifs <;> omega

/-- C1: for every BidOpportunity record, RelevanceScorer.score returns an
integer between 0 and 100 inclusive, and each of the five sub-scores
(keywords, location, budget, deadline, set-aside) independently stays
within its configured cap (30, 25, 20, 15, 10 respectively) and is never
negative, for every input record. -/
theorem C1_relevance_score_bounds (now : PyDateTime) (bid : BidOpportunity) :
    (0 ≤ RelevanceScorer.score_keywords bid ∧ RelevanceScorer.score_keywords bid ≤ 30) ∧
    (0 ≤ RelevanceScorer.score_location bid ∧ RelevanceScorer.score_location bid ≤ 25) ∧
    (0 ≤ RelevanceScorer.score_budget bid ∧ RelevanceScorer.score_budget bid ≤ 20) ∧
    (0 ≤ RelevanceScorer.score_deadline now bid ∧
      RelevanceScorer.score_deadline now bid ≤ 15) ∧
    (0 ≤ RelevanceScorer.score_set_aside bid ∧
      RelevanceScorer.score_set_aside bid ≤ 10) ∧
    (0 ≤ RelevanceScorer.score now bid ∧ RelevanceScorer.score now bid ≤ 100) := by
  have h1 := score_keywords_bounds bid
  have h2 := score_location_bounds bid
  have h3 := score_budget_bounds bid
  have h4 := score_deadline_bounds now bid
  have h5 := score_set_aside_bounds bid
  refine ⟨h1, h2, h3, h4, h5, ?_⟩
  unfold RelevanceScorer.score
  omega

/-! ## C7: shared keyword matching (scrapers.py BaseScraper._match_keywords) -/

namespace BaseScraper

/-- Number of keywords of a list hitting a lowercased text
(case-insensitive substring matches, each keyword counted once). -/
def hitCount (tl : List Char) (kws : List String) : Nat :=
  (kws.filter (fun kw => pyIn (lowerL kw.data) tl)).length

/-- One iteration of the _match_keywords loop: accumulator is
(best_type, best_count, all_matches); a project type replaces the best on
a strictly greater hit count. -/
def matchStep (tl : List Char) (acc : String × Nat × List String)
    (p : String × List String) : String × Nat × List String :=
  if (p.2.filter (fun kw => pyIn (lowerL kw.data) tl)).length > acc.2.1 then
    (p.1, (p.2.filter (fun kw => pyIn (lowerL kw.data) tl)).length,
      acc.2.2 ++ p.2.filter (fun kw => pyIn (lowerL kw.data) tl))
  else
    (acc.1, acc.2.1, acc.2.2 ++ p.2.filter (fun kw => pyIn (lowerL kw.data) tl))

/-- scrapers.py BaseScraper._match_keywords: returns
(best_project_type, matched_keywords).  Python returns list(set(...)) for
the second component, whose order is unspecified; it is modelled as the
accumulated match list with duplicates removed. -/
def match_keywords (text : String) : String × List String :=
  let tl := lowerL text.data
  let r := KEYWORDS.foldl (matchStep tl) ("general", 0, [])
  (r.1, r.2.2.eraseDups)

/-- Greatest hit count over a keyword table. -/
def maxCount (tl : List Char) : List (String × List String) → Nat
  | [] => 0
  | p :: rest => max (hitCount tl p.2) (maxCount tl rest)

/-- First project type of the table attaining hit count m. -/
def first_max_type (tl : List Char) (m : Nat) :
    List (String × List String) → String
  | [] => "general"
  | p :: rest => if hitCount tl p.2 == m then p.1 else first_max_type tl m rest

/-- Specification-side best project type: the type whose keyword list has
the most hits, ties resolved in favour of the first-declared type,
"general" when no keyword of any type hits. -/
def spec_best_project_type (table : List (String × List String))
    (text : String) : String :=
  let tl := lowerL text.data
  let m := maxCount tl table
  if m = 0 then "general" else first_max_type tl m table

theorem matchStep_of_gt (tl : List Char) (p : String × List String)
    (bt : String) (bc : Nat) (all : List String) (h : bc < hitCount tl p.2) :
    matchStep tl (bt, bc, all) p =
      (p.1, hitCount tl p.2,
        all ++ p.2.filter (fun kw => pyIn (lowerL kw.data) tl)) := by
  have h' : ((p.2.filter (fun kw => pyIn (lowerL kw.data) tl)).length >
      (bt, bc, all).2.1) := h
  unfold matchStep
  rw [if_pos h']
  rfl

theorem matchStep_of_le (tl : List Char) (p : String × List String)
    (bt : String) (bc : Nat) (all : List String) (h : hitCount tl p.2 ≤ bc) :
    matchStep tl (bt, bc, all) p =
      (bt, bc, all ++ p.2.filter (fun kw => pyIn (lowerL kw.data) tl)) := by
  have h' : ¬((p.2.filter (fun kw => pyIn (lowerL kw.data) tl)).length >
      (bt, bc, all).2.1) := by
    show ¬((p.2.filter (fun kw => pyIn (lowerL kw.data) tl)).length > bc)
    unfold hitCount at h
    omega
  unfold matchStep
  rw [if_neg h']

theorem foldl_matchStep_fst_of_le (tl : List Char) :
    ∀ (table : List (String × List String)) (bt : String) (bc : Nat)
      (all : List String), maxCount tl table ≤ bc →
      (table.foldl (matchStep tl) (bt, bc, all)).1 = bt := by
  intro table
  induction table with
  | nil => intro bt bc all _; rfl
  | cons p rest ih =>
    intro bt bc all h
    simp only [maxCount] at h
    rw [List.foldl_cons, matchStep_of_le tl p bt bc all (by omega)]
    exact ih bt bc _ (by omega)

theorem foldl_matchStep_fst_of_gt (tl : List Char) :
    ∀ (table : List (String × List String)) (bt : String) (bc : Nat)
      (all : List String), bc < maxCount tl table →
      (table.foldl (matchStep tl) (bt, bc, all)).1 =
        first_max_type tl (maxCount tl table) table := by
  intro table
  induction table with
  | nil => intro bt bc all h; simp [maxCount] at h
  | cons p rest ih =>
    intro bt bc all h
    simp only [maxCount] at h
    by_cases hg : bc < hitCount tl p.2
    · rw [List.foldl_cons, matchStep_of_gt tl p bt bc all hg]
      by_cases hr : maxCount tl rest ≤ hitCount tl p.2
      · have hm : maxCount tl (p :: rest) = hitCount tl p.2 := by
          simp only [maxCount]; omega
        rw [hm]
        simp only [first_max_type, beq_self_eq_true, if_true]
        exact foldl_matchStep_fst_of_le tl rest p.1 (hitCount tl p.2) _ hr
      · have hm : maxCount tl (p :: rest) = maxCount tl rest := by
          simp only [maxCount]; omega
        rw [hm]
        simp only [first_max_type]
        rw [if_neg (by simp only [beq_iff_eq]; omega)]
        exact ih p.1 (hitCount tl p.2) _ (by omega)
    · rw [List.foldl_cons, matchStep_of_le tl p bt bc all (by omega)]
      have hr : bc < maxCount tl rest := by omega
      have hm : maxCount tl (p :: rest) = maxCount tl rest := by
        simp only [maxCount]; omega
      rw [hm]
      simp only [first_max_type]
      rw [if_neg (by simp only [beq_iff_eq]; omega)]
      exact ih bt bc _ hr

/-- C7: for every input text, the shared keyword-matching step returns as
best_project_type the project type whose keyword list has the most
case-insensitive substring hits in the text; ties on the maximal hit
count favour the first-declared type, and when no keyword of any type
hits, "general" is returned. -/
theorem C7_match_keywords_best_type (text : String) :
    (match_keywords text).1 = spec_best_project_type KEYWORDS text := by
  unfold match_keywords spec_best_project_type
  by_cases h : maxCount (lowerL text.data) KEYWORDS = 0
  · rw [if_pos h]
    exact foldl_matchStep_fst_of_le (lowerL text.data) KEYWORDS "general" 0 []
      (by omega)
  · rw [if_neg h]
    exact foldl_matchStep_fst_of_gt (lowerL text.data) KEYWORDS "general" 0 []
      (by omega)

end BaseScraper

/-! ## C6: title normalization (models.py BidDatabase._normalize_title) -/

/-- Collapse of whitespace runs into single spaces:
re.sub with pattern backslash-s-plus and replacement " ".  Each maximal
whitespace run is emitted as one space character. -/
def collapseWs : List Char → List Char
  | [] => []
  | [c] => if pyIsSpace c then [' '] else [c]
  | c1 :: c2 :: t =>
    if pyIsSpace c1 && pyIsSpace c2 then collapseWs (c2 :: t)
    else (if pyIsSpace c1 then ' ' else c1) :: collapseWs (c2 :: t)

namespace BidDatabase

/-- The regex character class [a-z0-9]. -/
def isLowerAlnum (c : Char) : Bool := ('a' ≤ c && c ≤ 'z') || ('0' ≤ c && c ≤ '9')

/-- models.py line 418: re.sub replacing every character outside
[a-z0-9 whitespace] with a space (single-character class, so a map). -/
def subNonAlnumToSpace (l : List Char) : List Char :=
  l.map (fun c => if !(isLowerAlnum c || pyIsSpace c) then ' ' else c)

/-- models.py BidDatabase._normalize_title: lowercase, replace every
non-alphanumeric non-whitespace character with a space, collapse
whitespace runs, strip. -/
def normalize_title (title : String) : List Char :=
  pyStrip (collapseWs (subNonAlnumToSpace (lowerL title.data)))

/-- The claimed normalization, following the claim words: lowercase the
string, strip (delete) all non-alphanumeric characters (other than the
whitespace about to be collapsed), and collapse runs of whitespace. -/
def claimed_normalize_title (title : String) : List Char :=
  pyStrip (collapseWs ((lowerL title.data).filter
    (fun c => isLowerAlnum c || pyIsSpace c)))

end BidDatabase

/-- C6 counterexample: on the title "a-b" the code's normalization yields
"a b" (the dash becomes a space) while the claimed
lowercase-strip-collapse pipeline yields "ab", so the two differ. -/
theorem C6_counterexample :
    BidDatabase.normalize_title "a-b" = ['a', ' ', 'b'] ∧
    BidDatabase.claimed_normalize_title "a-b" = ['a', 'b'] ∧
    BidDatabase.normalize_title "a-b" ≠ BidDatabase.claimed_normalize_title "a-b" := by
  refine ⟨by decide, by decide, by decide⟩

/-- Non-whitespace test. -/
def nsp (c : Char) : Bool := !pyIsSpace c

/-- The whitespace-delimited words of a character list. -/
def tokens : List Char → List (List Char)
  | [] => []
  | c :: t =>
    if pyIsSpace c then tokens t
    else (c :: t.takeWhile nsp) :: tokens (t.dropWhile nsp)
termination_by l => l.length
decreasing_by
  · simp
  · simp only [List.length_cons]
    have := (t.dropWhile_sublist nsp).length_le
    omega

/-- Join words with single spaces. -/
def joinWords : List (List Char) → List Char
  | [] => []
  | [w] => w
  | w :: w2 :: ws => w ++ ' ' :: joinWords (w2 :: ws)

/-- The suffix contributed by later words: empty when there are none,
otherwise a separating space and the joined words. -/
def gJoin : List (List Char) → List Char
  | [] => []
  | ts => ' ' :: joinWords ts

/-- Words of d rendered as a suffix after an existing word. -/
def joinTail (d : List Char) : List Char := gJoin (tokens d)

/-- Trailing-whitespace strip. -/
def stripTrail (l : List Char) : List Char := (l.reverse.dropWhile pyIsSpace).reverse

theorem joinWords_cons (w : List Char) (ts : List (List Char)) :
    joinWords (w :: ts) = w ++ gJoin ts := by
  cases ts with
  | nil => simp [joinWords, gJoin]
  | cons w2 ws => simp [joinWords, gJoin]

theorem dropWhile_app (p : Char → Bool) :
    ∀ u v : List Char, List.dropWhile p (u ++ v) =
      if (List.dropWhile p u).isEmpty then List.dropWhile p v
      else List.dropWhile p u ++ v := by
  intro u
  induction u with
  | nil => intro v; simp
  | cons a u ih =>
    intro v
    by_cases h : p a
    · simpa [List.dropWhile_cons, h] using ih v
    · simp [List.dropWhile_cons, h]

theorem stripTrail_cons_ns (c : Char) (x : List Char) (h : pyIsSpace c = false) :
    stripTrail (c :: x) = c :: stripTrail x := by
  unfold stripTrail
  rw [List.reverse_cons, dropWhile_app]
  by_cases he : (List.dropWhile pyIsSpace x.reverse).isEmpty
  · rw [if_pos he]
    simp only [List.isEmpty_iff] at he
    simp [List.dropWhile_cons, h, he]
  · rw [if_neg he]
    simp

theorem stripTrail_cons_of_ne (c : Char) (x : List Char)
    (h : stripTrail x ≠ []) : stripTrail (c :: x) = c :: stripTrail x := by
  unfold stripTrail at h ⊢
  rw [List.reverse_cons, dropWhile_app]
  have he : (List.dropWhile pyIsSpace x.reverse).isEmpty = false := by
    rcases hq : List.dropWhile pyIsSpace x.reverse with _ | ⟨a, b⟩
    · exact absurd (by rw [hq]; rfl) h
    · rfl
  rw [he]
  simp

theorem collapseWs_cons_ns (c : Char) (t : List Char) (h : pyIsSpace c = false) :
    collapseWs (c :: t) = c :: collapseWs t := by
  cases t with
  | nil => simp [collapseWs, h]
  | cons c2 t2 => simp [collapseWs, h]

theorem dropWhile_collapseWs (l : List Char) :
    List.dropWhile pyIsSpace (collapseWs l) =
      collapseWs (List.dropWhile pyIsSpace l) := by
  induction l with
  | nil => rfl
  | cons c t ih =>
    by_cases h : pyIsSpace c
    · cases t with
      | nil =>
        simp only [collapseWs, h, if_pos, List.dropWhile_cons]
        decide
      | cons c2 t2 =>
        by_cases h2 : pyIsSpace c2
        · have hcol : collapseWs (c :: c2 :: t2) = collapseWs (c2 :: t2) := by
            simp [collapseWs, h, h2]
          rw [hcol, List.dropWhile_cons, if_pos h, List.dropWhile_cons, if_pos h2]
          rw [List.dropWhile_cons, if_pos h2] at ih
          exact ih
        · have hcol : collapseWs (c :: c2 :: t2) = ' ' :: collapseWs (c2 :: t2) := by
            simp [collapseWs, h, h2]
          rw [hcol, List.dropWhile_cons, if_pos (by decide : pyIsSpace ' ' = true)]
          rw [List.dropWhile_cons, if_pos h, List.dropWhile_cons,
            if_neg (by simpa using h2)]
          rw [collapseWs_cons_ns c2 t2 (by simpa using h2), List.dropWhile_cons,
            if_neg (by simpa using h2)]
    · rw [collapseWs_cons_ns c t (by simpa using h)]
      simp only [List.dropWhile_cons, if_neg h]
      exact (collapseWs_cons_ns c t (by simpa using h)).symm

theorem tokens_dropWhile (l : List Char) :
    tokens (List.dropWhile pyIsSpace l) = tokens l := by
  induction l with
  | nil => rfl
  | cons c t ih =>
    by_cases h : pyIsSpace c
    · rw [List.dropWhile_cons, if_pos h, ih]
      rw [tokens, if_pos h]
    · rw [List.dropWhile_cons, if_neg h]

theorem joinTail_congr {d1 d2 : List Char} (h : tokens d1 = tokens d2) :
    joinTail d1 = joinTail d2 := by
  unfold joinTail
  rw [h]

theorem dropWhile_head_not (p : Char → Bool) :
    ∀ (l : List Char) (c : Char) (t : List Char),
      List.dropWhile p l = c :: t → p c = false := by
  intro l
  induction l with
  | nil => intro c t h; cases h
  | cons a l ih =>
    intro c t h
    rw [List.dropWhile_cons] at h
    by_cases ha : p a
    · rw [if_pos ha] at h; exact ih c t h
    · rw [if_neg ha] at h
      cases h
      simpa using ha

theorem stripTrail_collapseWs (l : List Char) :
    stripTrail (collapseWs l) =
      l.takeWhile nsp ++ joinTail (l.dropWhile nsp) := by
  induction l with
  | nil => simp [stripTrail, collapseWs, joinTail, tokens, gJoin]
  | cons c t ih =>
    by_cases h : pyIsSpace c
    · rw [List.takeWhile_cons, if_neg (by simp [nsp, h]),
        List.dropWhile_cons, if_neg (by simp [nsp, h])]
      cases t with
      | nil =>
        have hcol : collapseWs [c] = [' '] := by simp [collapseWs, h]
        rw [hcol]
        have hst : stripTrail [' '] = [] := by decide
        rw [hst]
        simp [joinTail, tokens, h, gJoin]
      | cons c2 t2 =>
        have htok : tokens (c :: c2 :: t2) = tokens (c2 :: t2) := by
          rw [tokens, if_pos h]
        by_cases h2 : pyIsSpace c2
        · have hcol : collapseWs (c :: c2 :: t2) = collapseWs (c2 :: t2) := by
            simp [collapseWs, h, h2]
          rw [hcol, ih, List.takeWhile_cons, if_neg (by simp [nsp, h2]),
            List.dropWhile_cons, if_neg (by simp [nsp, h2])]
          simpa using (joinTail_congr htok).symm
        · have hcol : collapseWs (c :: c2 :: t2) = ' ' :: collapseWs (c2 :: t2) := by
            simp [collapseWs, h, h2]
          rw [hcol]
          have hne : stripTrail (collapseWs (c2 :: t2)) ≠ [] := by
            rw [ih, List.takeWhile_cons, if_pos (by simp [nsp, h2])]
            simp
          rw [stripTrail_cons_of_ne ' ' _ hne, ih]
          rw [List.takeWhile_cons, if_pos (by simp [nsp, h2]),
            List.dropWhile_cons, if_pos (by simp [nsp, h2])]
          unfold joinTail
          rw [htok]
          rw [show tokens (c2 :: t2) =
            (c2 :: t2.takeWhile nsp) :: tokens (t2.dropWhile nsp) from by
              rw [tokens, if_neg (by simp [h2])]]
          rw [show gJoin ((c2 :: t2.takeWhile nsp) :: tokens (t2.dropWhile nsp)) =
            ' ' :: joinWords ((c2 :: t2.takeWhile nsp) :: tokens (t2.dropWhile nsp))
            from by simp [gJoin]]
          rw [joinWords_cons]
          simp
    · rw [collapseWs_cons_ns c t (by simpa using h),
        stripTrail_cons_ns c _ (by simpa using h), ih]
      rw [List.takeWhile_cons, if_pos (by simp [nsp, h]),
        List.dropWhile_cons, if_pos (by simp [nsp, h])]
      simp

theorem pyStrip_collapseWs (l : List Char) :
    pyStrip (collapseWs l) = joinWords (tokens l) := by
  have h1 : pyStrip (collapseWs l) =
      stripTrail (List.dropWhile pyIsSpace (collapseWs l)) := rfl
  rw [h1, dropWhile_collapseWs, stripTrail_collapseWs, ← tokens_dropWhile l]
  rcases hd : List.dropWhile pyIsSpace l with _ | ⟨c, t⟩
  · simp [tokens, joinTail, gJoin, joinWords]
  · have hc : pyIsSpace c = false := dropWhile_head_not pyIsSpace l c t hd
    rw [show tokens (c :: t) = (c :: t.takeWhile nsp) :: tokens (t.dropWhile nsp)
      from by rw [tokens, if_neg (by simp [hc])]]
    rw [joinWords_cons, List.takeWhile_cons, if_pos (by simp [nsp, hc]),
      List.dropWhile_cons, if_pos (by simp [nsp, hc])]
    simp [joinTail]

/-- C6 amended: the deduplicator's title normalization equals lowercasing
the string, replacing every non-alphanumeric character with a space
(rather than deleting it), and collapsing runs of whitespace —
equivalently, the whitespace-delimited words of the replaced lowercase
text joined by single spaces. -/
theorem C6_normalize_title_amended (title : String) :
    BidDatabase.normalize_title title =
      joinWords (tokens (BidDatabase.subNonAlnumToSpace (lowerL title.data))) := by
  unfold BidDatabase.normalize_title
  exact pyStrip_collapseWs _

/-! ## The opportunities table (models.py BidDatabase) -/

/-- One row of the opportunities table: the BidOpportunity columns plus
the id primary key and the created_at / updated_at timestamps. -/
structure DBRow where
  id : Nat
  opp : BidOpportunity
  created_at : String
  updated_at : String
deriving DecidableEq

/-- The (source, source_id) uniqueness-key conflict test of the upsert. -/
def key_conflict (b : BidOpportunity) (r : DBRow) : Bool :=
  r.opp.source == b.source && r.opp.source_id == b.source_id

/-- Python `s or d` for strings: the empty string is falsy. -/
def pyOrStr (s d : String) : String := if s == "" then d else s

/-- models.py BidDatabase.upsert_opportunity: INSERT with
ON CONFLICT(source, source_id) DO UPDATE SET title, description,
due_date, relevance_score and updated_at from the excluded row.
now_iso is datetime.now().isoformat() (the updated_at value and the
scraped_at default), now_ts the SQL CURRENT_TIMESTAMP used for
created_at on insert, new_id the AUTOINCREMENT id of a fresh row.
Returns the resulting table and the row id (cursor.lastrowid). -/
def upsert_opportunity (now_iso now_ts : String) (new_id : Nat)
    (b : BidOpportunity) (db : List DBRow) : List DBRow × Nat :=
  if db.any (fun r => key_conflict b r) then
    (db.map (fun r =>
      if key_conflict b r then
        { r with
          opp := { r.opp with
            title := b.title,
            description := b.description,
            due_date := b.due_date,
            relevance_score := b.relevance_score },
          updated_at := now_iso }
      else r),
     ((db.find? (fun r => key_conflict b r)).map (fun r => r.id)).getD new_id)
  else
    (db ++ [{ id := new_id,
              opp := { b with scraped_at := pyOrStr b.scraped_at now_iso },
              created_at := now_ts,
              updated_at := now_iso }],
     new_id)

/-- All row fields other than title, description, due_date,
relevance_score and updated_at agree between r and r'. -/
def preserves_review_state (r r' : DBRow) : Prop :=
  r'.id = r.id ∧ r'.created_at = r.created_at ∧
  r'.opp.source = r.opp.source ∧ r'.opp.source_url = r.opp.source_url ∧
  r'.opp.source_id = r.opp.source_id ∧
  r'.opp.project_type = r.opp.project_type ∧
  r'.opp.naics_code = r.opp.naics_code ∧
  r'.opp.category_tags = r.opp.category_tags ∧
  r'.opp.location_city = r.opp.location_city ∧
  r'.opp.location_county = r.opp.location_county ∧
  r'.opp.location_state = r.opp.location_state ∧
  r'.opp.location_zip = r.opp.location_zip ∧
  r'.opp.location_address = r.opp.location_address ∧
  r'.opp.estimated_value_min = r.opp.estimated_value_min ∧
  r'.opp.estimated_value_max = r.opp.estimated_value_max ∧
  r'.opp.budget_display = r.opp.budget_display ∧
  r'.opp.posted_date = r.opp.posted_date ∧
  r'.opp.pre_bid_date = r.opp.pre_bid_date ∧
  r'.opp.project_start_date = r.opp.project_start_date ∧
  r'.opp.project_end_date = r.opp.project_end_date ∧
  r'.opp.contact_name = r.opp.contact_name ∧
  r'.opp.contact_email = r.opp.contact_email ∧
  r'.opp.contact_phone = r.opp.contact_phone ∧
  r'.opp.agency_name = r.opp.agency_name ∧
  r'.opp.set_aside = r.opp.set_aside ∧
  r'.opp.contract_type = r.opp.contract_type ∧
  r'.opp.solicitation_type = r.opp.solicitation_type ∧
  r'.opp.keyword_matches = r.opp.keyword_matches ∧
  r'.opp.scraped_at = r.opp.scraped_at ∧
  r'.opp.status = r.opp.status ∧
  r'.opp.notes = r.opp.notes ∧
  r'.opp.attachments = r.opp.attachments

/-- The overwritten fields of the conflict update carry the new bid's
values, and updated_at the new timestamp. -/
def applies_update (now_iso : String) (b : BidOpportunity) (r' : DBRow) : Prop :=
  r'.opp.title = b.title ∧ r'.opp.description = b.description ∧
  r'.opp.due_date = b.due_date ∧ r'.opp.relevance_score = b.relevance_score ∧
  r'.updated_at = now_iso

/-- C2: for every stored table and every upsert of a record whose
(source, source_id) key is already present, upsert_opportunity updates
only title, description, due_date, relevance_score and updated_at of the
conflicting row; every other field of that row — in particular status and
notes — and every other row are left unchanged, and no row is inserted. -/
theorem C2_upsert_updates_only_listed_fields (now_iso now_ts : String)
    (new_id : Nat) (b : BidOpportunity) (db : List DBRow)
    (h : ∃ r ∈ db, key_conflict b r = true) :
    (upsert_opportunity now_iso now_ts new_id b db).1.length = db.length ∧
    ∀ (i : Nat) (hi : i < db.length)
      (hi2 : i < (upsert_opportunity now_iso now_ts new_id b db).1.length),
      (key_conflict b (db.get ⟨i, hi⟩) = true →
        preserves_review_state (db.get ⟨i, hi⟩)
          ((upsert_opportunity now_iso now_ts new_id b db).1.get ⟨i, hi2⟩) ∧
        applies_update now_iso b
          ((upsert_opportunity now_iso now_ts new_id b db).1.get ⟨i, hi2⟩)) ∧
      (key_conflict b (db.get ⟨i, hi⟩) = false →
        (upsert_opportunity now_iso now_ts new_id b db).1.get ⟨i, hi2⟩ =
          db.get ⟨i, hi⟩) := by
  have hany : db.any (fun r => key_conflict b r) = true := by
    rw [List.any_eq_true]
    obtain ⟨r, hr, hk⟩ := h
    exact ⟨r, hr, hk⟩
  unfold upsert_opportunity
  rw [if_pos hany]
  refine ⟨by simp, ?_⟩
  intro i hi hi2
  constructor
  · intro hk
    simp only [List.get_eq_getElem] at hk
    simp only [List.get_eq_getElem, List.getElem_map]
    rw [if_pos hk]
    unfold preserves_review_state applies_update
    refine ⟨?_, ?_⟩ <;> simp
  · intro hk
    have hk' : ¬(key_conflict b db[i] = true) := by
      simp only [List.get_eq_getElem] at hk
      simp [hk]
    simp only [List.get_eq_getElem, List.getElem_map]
    rw [if_neg hk']

/-- A stored row whose status and notes were changed by manual review. -/
def rowW : DBRow :=
  { id := 1,
    opp := { title := "Garage Waterproofing", source := "sam_gov",
             source_url := "https://x", source_id := "ab12",
             status := "bid", notes := "call agency",
             due_date := "2026-01-01", relevance_score := 40 },
    created_at := "2026-01-01 00:00:00",
    updated_at := "2026-01-01T00:00:00" }

/-- A re-scrape of the same listing with a different due_date and score. -/
def bidW : BidOpportunity :=
  { title := "Garage Waterproofing Phase 2", source := "sam_gov",
    source_url := "https://y", source_id := "ab12",
    due_date := "2026-03-01", relevance_score := 55 }

theorem C2_upsert_updates_only_listed_fields_witness :
    (∃ r ∈ [rowW], key_conflict bidW r = true) ∧
    (upsert_opportunity "N" "T" 7 bidW [rowW]).1.length = 1 ∧
    preserves_review_state rowW
      ((upsert_opportunity "N" "T" 7 bidW [rowW]).1.get ⟨0, by decide⟩) ∧
    applies_update "N" bidW
      ((upsert_opportunity "N" "T" 7 bidW [rowW]).1.get ⟨0, by decide⟩) := by
  have H := C2_upsert_updates_only_listed_fields "N" "T" 7 bidW [rowW]
    ⟨rowW, by decide, by decide⟩
  have H2 := (H.2 0 (by decide) (by decide)).1 (by decide)
  exact ⟨⟨rowW, by decide, by decide⟩, H.1, H2.1, H2.2⟩

/-! ## C8: update_status (models.py BidDatabase.update_status) -/

/-- models.py BidDatabase.update_status: a single UPDATE setting status,
notes and updated_at on the row with the given id, followed by commit.
There is no existence check and no error path. -/
def update_status (now : String) (opp_id : Nat) (status notes : String)
    (db : List DBRow) : List DBRow :=
  db.map (fun r =>
    if r.id == opp_id then
      { r with opp := { r.opp with status := status, notes := notes },
               updated_at := now }
    else r)

/-- The observable outcome of calling update_status, with an explicit
error channel: since the source has no NotFound (or any other) signalling
path, the call always returns ok. -/
def update_status_result (now : String) (opp_id : Nat) (status notes : String)
    (db : List DBRow) : Except Unit (List DBRow) :=
  Except.ok (update_status now opp_id status notes db)

/-- The behaviour the claim describes, following the claim's words: the
call succeeds when a record with the id exists and signals NotFound
otherwise. -/
def update_status_claimed (now : String) (opp_id : Nat) (status notes : String)
    (db : List DBRow) : Except Unit (List DBRow) :=
  if db.any (fun r => r.id == opp_id) then
    Except.ok (update_status now opp_id status notes db)
  else Except.error ()

/-- C8 counterexample: on an empty store, update_status of id 1 has no
record to update; the claim demands a NotFound signal, but the code's
call succeeds silently with the store unchanged. -/
theorem C8_counterexample :
    (([] : List DBRow).any (fun r => r.id == 1)) = false ∧
    update_status_result "t" 1 "bid" "" [] = Except.ok [] ∧
    update_status_claimed "t" 1 "bid" "" [] = Except.error () ∧
    update_status_result "t" 1 "bid" "" [] ≠ update_status_claimed "t" 1 "bid" "" [] := by
  refine ⟨rfl, rfl, rfl, ?_⟩
  intro h
  rw [show update_status_result "t" 1 "bid" "" [] = Except.ok [] from rfl,
    show update_status_claimed "t" 1 "bid" "" [] = Except.error () from rfl] at h
  exact Except.noConfusion h

/-- All row fields other than status, notes and updated_at agree. -/
def preserves_status_frame (r r' : DBRow) : Prop :=
  r'.id = r.id ∧ r'.created_at = r.created_at ∧
  r'.opp.title = r.opp.title ∧ r'.opp.source = r.opp.source ∧
  r'.opp.source_url = r.opp.source_url ∧ r'.opp.source_id = r.opp.source_id ∧
  r'.opp.description = r.opp.description ∧
  r'.opp.project_type = r.opp.project_type ∧
  r'.opp.naics_code = r.opp.naics_code ∧
  r'.opp.category_tags = r.opp.category_tags ∧
  r'.opp.location_city = r.opp.location_city ∧
  r'.opp.location_county = r.opp.location_county ∧
  r'.opp.location_state = r.opp.location_state ∧
  r'.opp.location_zip = r.opp.location_zip ∧
  r'.opp.location_address = r.opp.location_address ∧
  r'.opp.estimated_value_min = r.opp.estimated_value_min ∧
  r'.opp.estimated_value_max = r.opp.estimated_value_max ∧
  r'.opp.budget_display = r.opp.budget_display ∧
  r'.opp.posted_date = r.opp.posted_date ∧ r'.opp.due_date = r.opp.due_date ∧
  r'.opp.pre_bid_date = r.opp.pre_bid_date ∧
  r'.opp.project_start_date = r.opp.project_start_date ∧
  r'.opp.project_end_date = r.opp.project_end_date ∧
  r'.opp.contact_name = r.opp.contact_name ∧
  r'.opp.contact_email = r.opp.contact_email ∧
  r'.opp.contact_phone = r.opp.contact_phone ∧
  r'.opp.agency_name = r.opp.agency_name ∧
  r'.opp.set_aside = r.opp.set_aside ∧
  r'.opp.contract_type = r.opp.contract_type ∧
  r'.opp.solicitation_type = r.opp.solicitation_type ∧
  r'.opp.relevance_score = r.opp.relevance_score ∧
  r'.opp.keyword_matches = r.opp.keyword_matches ∧
  r'.opp.scraped_at = r.opp.scraped_at ∧
  r'.opp.attachments = r.opp.attachments

/-- C8 amended: update_status sets status and notes (and updated_at) on
the row with the given id when it exists, leaving its other fields and
all other rows unchanged; when no row has that id the call is a silent
no-op — the store is returned unchanged and its result is ok, never a
NotFound signal. -/
theorem C8_update_status_amended (now : String) (opp_id : Nat)
    (status notes : String) (db : List DBRow) :
    ((∀ r ∈ db, (r.id == opp_id) = false) →
      update_status_result now opp_id status notes db = Except.ok db) ∧
    (update_status now opp_id status notes db).length = db.length ∧
    ∀ (i : Nat) (hi : i < db.length)
      (hi2 : i < (update_status now opp_id status notes db).length),
      (((db.get ⟨i, hi⟩).id == opp_id) = true →
        preserves_status_frame (db.get ⟨i, hi⟩)
          ((update_status now opp_id status notes db).get ⟨i, hi2⟩) ∧
        ((update_status now opp_id status notes db).get ⟨i, hi2⟩).opp.status = status ∧
        ((update_status now opp_id status notes db).get ⟨i, hi2⟩).opp.notes = notes ∧
        ((update_status now opp_id status notes db).get ⟨i, hi2⟩).updated_at = now) ∧
      (((db.get ⟨i, hi⟩).id == opp_id) = false →
        (update_status now opp_id status notes db).get ⟨i, hi2⟩ = db.get ⟨i, hi⟩) := by
  refine ⟨?_, by simp [update_status], ?_⟩
  · intro hnone
    unfold update_status_result update_status
    congr 1
    conv_rhs => rw [← List.map_id db]
    apply List.map_congr_left
    intro r hr
    rw [if_neg (by simp [hnone r hr])]
    rfl
  · intro i hi hi2
    constructor
    · intro hk
      simp only [List.get_eq_getElem] at hk
      unfold update_status
      simp only [List.get_eq_getElem, List.getElem_map]
      rw [if_pos hk]
      unfold preserves_status_frame
      refine ⟨?_, rfl, rfl, rfl⟩
      simp
    · intro hk
      simp only [List.get_eq_getElem] at hk
      unfold update_status
      simp only [List.get_eq_getElem, List.getElem_map]
      rw [if_neg (by simp [hk])]

theorem C8_update_status_amended_witness :
    ((∀ r ∈ [rowW], (r.id == 2) = false) →
      update_status_result "u" 2 "no_bid" "n" [rowW] = Except.ok [rowW]) ∧
    preserves_status_frame rowW
      ((update_status "u" 1 "no_bid" "n" [rowW]).get ⟨0, by decide⟩) ∧
    ((update_status "u" 1 "no_bid" "n" [rowW]).get ⟨0, by decide⟩).opp.status = "no_bid" ∧
    update_status_result "u" 2 "no_bid" "n" [rowW] = Except.ok [rowW] := by
  have H1 := C8_update_status_amended "u" 2 "no_bid" "n" [rowW]
  have H2 := C8_update_status_amended "u" 1 "no_bid" "n" [rowW]
  have h2 := (H2.2.2 0 (by decide) (by decide)).1 (by decide)
  exact ⟨H1.1, h2.1, h2.2.1, H1.1 (by decide)⟩

/-! ## C3: per-source retry policy (main.py _run_scraper_with_retry) -/

/-- The kinds of exceptions an adapter invocation can raise (requests
network errors, HTTP status errors, timeouts, and arbitrary bugs such as
ValueError), with their message. -/
inductive ScrapeExc where
  | connectionError (msg : String)
  | httpError (msg : String)
  | timeout (msg : String)
  | valueError (msg : String)
  | other (msg : String)
deriving DecidableEq

/-- Modelled from the spec: the SourceUnavailable error kind of the
spec's error taxonomy (network / timeout / HTTP failures); no such class
exists in the source. -/
def isSourceUnavailable : ScrapeExc → Bool
  | .connectionError _ => true
  | .httpError _ => true
  | .timeout _ => true
  | .valueError _ => false
  | .other _ => false

/-- Python str(e): the exception message. -/
def excMsg : ScrapeExc → String
  | .connectionError m => m
  | .httpError m => m
  | .timeout m => m
  | .valueError m => m
  | .other m => m

/-- Python str of last_error, which is None when no attempt ran. -/
def lastErrorStr : Option ScrapeExc → String
  | none => "None"
  | some e => excMsg e

/-- The `for attempt in range(1, max_retries + 1)` loop of
_run_scraper_with_retry: attempt is the current 1-based index, the middle
argument the number of attempts left, the last the latest error.  An
attempt's outcome is given by the environment b (the scraper either
returns results or raises). -/
def run_loop (b : Nat → Except ScrapeExc (List BidOpportunity)) :
    Nat → Nat → Option ScrapeExc → Except (Option ScrapeExc) (List BidOpportunity)
  | _, 0, last => .error last
  | attempt, k + 1, _ =>
    match b attempt with
    | .ok res => .ok res
    | .error e => run_loop b (attempt + 1) k (some e)

/-- main.py _run_scraper_with_retry: returns (results, None) on the first
successful attempt, and ([], error_msg) after exhausting max_retries
attempts; every exception kind is caught and retried alike. -/
def run_scraper_with_retry (name : String)
    (b : Nat → Except ScrapeExc (List BidOpportunity)) (max_retries : Nat) :
    List BidOpportunity × Option String :=
  match run_loop b 1 max_retries none with
  | .ok res => (res, none)
  | .error last =>
    ([], some (name ++ ": " ++ lastErrorStr last ++ " (failed after " ++
      toString max_retries ++ " attempts)"))

/-- A minimal candidate record returned by a successful scrape. -/
def bidC3 : BidOpportunity :=
  { title := "t", source := "s", source_url := "u" }

/-- An adapter that raises ValueError on the first attempt and succeeds
on the second. -/
def scrapeC3 : Nat → Except ScrapeExc (List BidOpportunity)
  | 2 => .ok [bidC3]
  | _ => .error (.valueError "boom")

/-- An adapter that times out on every attempt. -/
def scrapeC3b : Nat → Except ScrapeExc (List BidOpportunity)
  | _ => .error (.timeout "t/o")

/-- C3 counterexample: with the code's max_retries = 2, an adapter whose
first attempt raises ValueError — not of the SourceUnavailable kind — is
nevertheless retried, and the run returns the second attempt's results
instead of recording a hard per-source failure. -/
theorem C3_counterexample :
    isSourceUnavailable (ScrapeExc.valueError "boom") = false ∧
    scrapeC3 1 = Except.error (ScrapeExc.valueError "boom") ∧
    run_scraper_with_retry "EVA" scrapeC3 2 = ([bidC3], none) ∧
    run_scraper_with_retry "EVA" scrapeC3 2 ≠
      ([], some ("EVA: boom (failed after 2 attempts)")) := by
  refine ⟨rfl, rfl, rfl, by decide⟩

/-- C3 amended: the runner retries a failed adapter invocation on every
exception kind alike (there is no SourceUnavailable distinction): with
the configured max_retries = 2, a first-attempt failure of any kind is
followed by a second attempt; only when all attempts fail does it record
a hard per-source failure built from the last error, and it never lets
the exception escape (the run continues with the other sources). -/
theorem C3_retry_any_exception (name : String)
    (b : Nat → Except ScrapeExc (List BidOpportunity)) :
    (∀ res, b 1 = .ok res → run_scraper_with_retry name b 2 = (res, none)) ∧
    (∀ e res, b 1 = .error e → b 2 = .ok res →
      run_scraper_with_retry name b 2 = (res, none)) ∧
    (∀ e1 e2, b 1 = .error e1 → b 2 = .error e2 →
      run_scraper_with_retry name b 2 =
        ([], some (name ++ ": " ++ excMsg e2 ++ " (failed after 2 attempts)"))) := by
  have h1step : run_loop b 1 2 none =
      match b 1 with
      | .ok res => .ok res
      | .error e => run_loop b 2 1 (some e) := rfl
  have h2step : ∀ e, run_loop b 2 1 (some e) =
      match b 2 with
      | .ok res => .ok res
      | .error e2 => run_loop b 3 0 (some e2) := fun e => rfl
  refine ⟨?_, ?_, ?_⟩
  · intro res h
    unfold run_scraper_with_retry
    rw [h1step, h]
  · intro e res hx1 hx2
    unfold run_scraper_with_retry
    rw [h1step, hx1]
    simp only []
    rw [h2step, hx2]
  · intro e1 e2 hx1 hx2
    unfold run_scraper_with_retry
    rw [h1step, hx1]
    simp only []
    rw [h2step, hx2]
    simp only [run_loop, lastErrorStr]
    rw [show (toString (2 : Nat) : String) = "2" from rfl]
    simp only [String.append_assoc]
    rfl

theorem C3_retry_any_exception_witness :
    (scrapeC3 1 = Except.error (ScrapeExc.valueError "boom") ∧
      scrapeC3 2 = Except.ok [bidC3] ∧
      run_scraper_with_retry "EVA" scrapeC3 2 = ([bidC3], none)) ∧
    (scrapeC3b 1 = Except.error (ScrapeExc.timeout "t/o") ∧
      scrapeC3b 2 = Except.error (ScrapeExc.timeout "t/o") ∧
      run_scraper_with_retry "EVA" scrapeC3b 2 =
        ([], some "EVA: t/o (failed after 2 attempts)")) := by
  refine ⟨⟨rfl, rfl, ?_⟩, ⟨rfl, rfl, ?_⟩⟩
  · exact (C3_retry_any_exception "EVA" scrapeC3).2.1 _ _ rfl rfl
  · exact (C3_retry_any_exception "EVA" scrapeC3b).2.2 _ _ rfl rfl

/-! ## C9: run exclusivity (app.py api_run / _run_scraper_background)

app.py guards runs with the module-level flag _scraper_state["running"]:
api_run returns 409 when the flag is set and otherwise spawns a daemon
thread running _run_scraper_background, which sets the flag to True in
its first statement and clears it in its finally block.  Each transition
below is one atomic step of that code; the api_run handler's
check-then-spawn is even modelled as a single atomic step, which is
generous to the code — the race remains because the spawned thread sets
the flag only when it is first scheduled. -/

/-- Phase of a spawned background thread. -/
inductive ThreadPhase where
  | spawned
  | started
  | finished
deriving DecidableEq

/-- HTTP response of the api_run endpoint. -/
inductive RunResponse where
  | runStarted
  | conflict409
deriving DecidableEq

/-- The shared state: the running flag, the two background threads (of
two start-run requests), and the two responses. -/
structure AppState where
  running : Bool
  t1 : Option ThreadPhase
  t2 : Option ThreadPhase
  r1 : Option RunResponse
  r2 : Option RunResponse
deriving DecidableEq

def initState : AppState :=
  { running := false, t1 := none, t2 := none, r1 := none, r2 := none }

/-- One atomic step of the Flask app: either request handler runs its
check-then-spawn (responding 409 when the flag is set), or a spawned
thread executes its first statement (running = True), or a started
thread finishes (running = False in the finally block). -/
inductive AppStep : AppState → AppState → Prop where
  | req1_conflict (s : AppState) (h : s.r1 = none) (hr : s.running = true) :
      AppStep s { s with r1 := some .conflict409 }
  | req1_start (s : AppState) (h : s.r1 = none) (hr : s.running = false) :
      AppStep s { s with r1 := some .runStarted, t1 := some .spawned }
  | req2_conflict (s : AppState) (h : s.r2 = none) (hr : s.running = true) :
      AppStep s { s with r2 := some .conflict409 }
  | req2_start (s : AppState) (h : s.r2 = none) (hr : s.running = false) :
      AppStep s { s with r2 := some .runStarted, t2 := some .spawned }
  | t1_begin (s : AppState) (h : s.t1 = some .spawned) :
      AppStep s { s with t1 := some .started, running := true }
  | t2_begin (s : AppState) (h : s.t2 = some .spawned) :
      AppStep s { s with t2 := some .started, running := true }
  | t1_end (s : AppState) (h : s.t1 = some .started) :
      AppStep s { s with t1 := some .finished, running := false }
  | t2_end (s : AppState) (h : s.t2 = some .started) :
      AppStep s { s with t2 := some .finished, running := false }

/-- C9 (code bug): from the idle initial state the app can reach, by the
interleaving req1-check, req2-check, thread1-begin, thread2-begin, a
state in which both scraper runs execute concurrently and both callers
were answered "started" — the second request was neither rejected with a
conflict nor queued, contradicting the one-Running-at-a-time claim. -/
theorem C9_run_exclusivity_violated :
    Relation.ReflTransGen AppStep initState
      { running := true, t1 := some .started, t2 := some .started,
        r1 := some .runStarted, r2 := some .runStarted } := by
  have h1 : AppStep initState
      { running := false, t1 := some .spawned, t2 := none,
        r1 := some .runStarted, r2 := none } :=
    AppStep.req1_start initState rfl rfl
  have h2 : AppStep
      { running := false, t1 := some .spawned, t2 := none,
        r1 := some .runStarted, r2 := none }
      { running := false, t1 := some .spawned, t2 := some .spawned,
        r1 := some .runStarted, r2 := some .runStarted } :=
    AppStep.req2_start _ rfl rfl
  have h3 : AppStep
      { running := false, t1 := some .spawned, t2 := some .spawned,
        r1 := some .runStarted, r2 := some .runStarted }
      { running := true, t1 := some .started, t2 := some .spawned,
        r1 := some .runStarted, r2 := some .runStarted } :=
    AppStep.t1_begin _ rfl
  have h4 : AppStep
      { running := true, t1 := some .started, t2 := some .spawned,
        r1 := some .runStarted, r2 := some .runStarted }
      { running := true, t1 := some .started, t2 := some .started,
        r1 := some .runStarted, r2 := some .runStarted } :=
    AppStep.t2_begin _ rfl
  exact .head h1 (.head h2 (.head h3 (.head h4 .refl)))

/-! ## C4: expiry purge (models.py BidDatabase.remove_expired) -/

/-- SQLite LIKE pattern '____-__-__%': at least ten characters with
dashes at positions 4 and 7 (every _ matches any single character). -/
def likeIsoShape : List Char → Bool
  | _ :: _ :: _ :: _ :: m1 :: _ :: _ :: m2 :: _ :: _ :: _ => m1 == '-' && m2 == '-'
  | _ => false

/-- Decimal digit character. -/
def digitChar (n : Nat) : Char := Char.ofNat (48 + n)

/-- Two-digit zero-padded rendering (strftime %m / %d). -/
def format2 (n : Nat) : List Char := [digitChar (n / 10 % 10), digitChar (n % 10)]

/-- Four-digit zero-padded rendering (strftime %Y for years up to 9999). -/
def format4 (n : Nat) : List Char :=
  [digitChar (n / 1000 % 10), digitChar (n / 100 % 10),
   digitChar (n / 10 % 10), digitChar (n % 10)]

/-- datetime.now().strftime("%Y-%m-%d"). -/
def formatISO (d : PyDate) : List Char :=
  format4 d.year ++ '-' :: (format2 d.month ++ '-' :: format2 d.day)

/-- The SQL DELETE predicate of phase 1: status 'new', nonempty due_date
of ISO shape, and text strictly below today's ISO string. -/
def iso_delete_pred (todayS : List Char) (r : DBRow) : Bool :=
  r.opp.status == "new" && r.opp.due_date != "" &&
  likeIsoShape r.opp.due_date.data && lexLt r.opp.due_date.data todayS

/-- The Python-side expiry test of phase 2: strptime the first ten
characters as %m/%d/%Y, falling back to %m-%d-%Y only when the first
format fails to parse (the loop breaks after a successful parse even if
the date is not past). -/
def non_iso_expired (today : PyDate) (r : DBRow) : Bool :=
  match parseMDY '/' (r.opp.due_date.data.take 10) with
  | some d => dateLt d today
  | none =>
    match parseMDY '-' (r.opp.due_date.data.take 10) with
    | some d => dateLt d today
    | none => false

/-- The phase-2 selection-plus-expiry predicate: the SELECT restricts to
status 'new', nonempty, non-ISO-shaped due_dates; the Python loop keeps
those parsing to a past date. -/
def py_side_pred (today : PyDate) (r : DBRow) : Bool :=
  r.opp.status == "new" && r.opp.due_date != "" &&
  !(likeIsoShape r.opp.due_date.data) && non_iso_expired today r

/-- models.py BidDatabase.remove_expired: phase 1 deletes ISO-shaped
past-due 'new' rows in SQL (rowcount counted), phase 2 collects the ids
of remaining non-ISO 'new' rows whose parsed date is past and deletes
them by id; returns the total count and (in this embedding) the
resulting table. -/
def remove_expired (today : PyDate) (db : List DBRow) : Nat × List DBRow :=
  let todayS := formatISO today
  let db1 := db.filter (fun r => !(iso_delete_pred todayS r))
  let iso_deleted := db.countP (fun r => iso_delete_pred todayS r)
  let non_iso_ids := (db1.filter (fun r => py_side_pred today r)).map (fun r => r.id)
  let db2 := db1.filter (fun r => !(non_iso_ids.contains r.id))
  (iso_deleted + non_iso_ids.length, db2)

/-- The claim's deletion predicate: status 'new' and a due_date text that
parses as ISO YYYY-MM-DD, MM/DD/YYYY or MM-DD-YYYY to a date strictly
before today. -/
def claimed_expired (today : PyDate) (r : DBRow) : Bool :=
  r.opp.status == "new" &&
  (match parseYMD r.opp.due_date.data with
   | some d => dateLt d today
   | none =>
     match parseMDY '/' r.opp.due_date.data with
     | some d => dateLt d today
     | none =>
       match parseMDY '-' r.opp.due_date.data with
       | some d => dateLt d today
       | none => false)

def today0 : PyDate := ⟨2026, 10, 12⟩

/-- A stored row whose due_date is ISO-shaped garbage, not a date. -/
def rowC4_shape : DBRow :=
  { id := 1,
    opp := { title := "t", source := "s", source_url := "u",
             due_date := "0000-00-00" },
    created_at := "", updated_at := "" }

/-- C4 counterexample: "0000-00-00" parses in none of the claimed
formats (month 0 is invalid), so the claim requires the record to be
left in the store; but it matches the LIKE '____-__-__%' shape and is
lexicographically below today's ISO string, so the SQL phase deletes it
and counts it. -/
theorem C4_counterexample :
    claimed_expired today0 rowC4_shape = false ∧
    rowC4_shape.opp.status = "new" ∧
    remove_expired today0 [rowC4_shape] = (1, []) := by
  refine ⟨by decide, rfl, by decide⟩

/-- The deletion predicate remove_expired actually implements, as one
pass: status 'new', nonempty due_date, and either an ISO-shaped due_date
lexicographically below today's ISO string (valid zero-padded ISO dates:
exactly the dates strictly before today; but invalid shaped text may
also qualify), or a non-shaped due_date whose first ten characters
strptime as MM/DD/YYYY or MM-DD-YYYY to a date strictly before today. -/
def code_expired (today : PyDate) (r : DBRow) : Bool :=
  r.opp.status == "new" && r.opp.due_date != "" &&
  (if likeIsoShape r.opp.due_date.data then
    lexLt r.opp.due_date.data (formatISO today)
  else non_iso_expired today r)

theorem code_expired_split (today : PyDate) (r : DBRow) :
    code_expired today r =
      (iso_delete_pred (formatISO today) r || py_side_pred today r) := by
  unfold code_expired iso_delete_pred py_side_pred
  cases h1 : (r.opp.status == "new") <;>
    cases h2 : (r.opp.due_date != "") <;>
      cases h3 : likeIsoShape r.opp.due_date.data <;> simp [h1, h2, h3]

theorem py_side_not_iso (today : PyDate) (r : DBRow)
    (h : py_side_pred today r = true) :
    iso_delete_pred (formatISO today) r = false := by
  unfold py_side_pred at h
  unfold iso_delete_pred
  cases h3 : likeIsoShape r.opp.due_date.data <;> simp [h3] at h ⊢

theorem countP_or_split (p q : DBRow → Bool) (l : List DBRow) :
    l.countP (fun r => p r || q r) =
      l.countP p + l.countP (fun r => q r && !(p r)) := by
  induction l with
  | nil => rfl
  | cons a l ih =>
    rw [List.countP_cons, List.countP_cons, List.countP_cons, ih]
    cases hp : p a <;> cases hq : q a <;> simp [hp, hq] <;> omega

/-- C4 amended: remove_expired deletes exactly the rows satisfying
code_expired — status 'new' and either an ISO-shaped due_date text
lexicographically below today's ISO string (for genuine zero-padded ISO
dates this is exactly "strictly before today", but ISO-shaped non-dates
can also be deleted) or a non-ISO-shaped due_date parsing as MM/DD/YYYY
or MM-DD-YYYY (on its first ten characters) to a date strictly before
today — and returns their count; every other row, in particular every
row with status other than 'new' and every row whose due_date neither
has the ISO shape nor parses, is retained unchanged. -/
theorem C4_remove_expired_amended (today : PyDate) (db : List DBRow)
    (hnd : (db.map (fun r => r.id)).Nodup) :
    remove_expired today db =
      ((db.filter (fun r => code_expired today r)).length,
        db.filter (fun r => !(code_expired today r))) := by
  simp only [remove_expired]
  have hmem : ∀ r ∈ db.filter (fun r => !(iso_delete_pred (formatISO today) r)),
      (((db.filter (fun r => !(iso_delete_pred (formatISO today) r))).filter
        (fun r => py_side_pred today r)).map (fun r => r.id)).contains r.id =
      py_side_pred today r := by
    intro r hr
    by_cases hq : py_side_pred today r = true
    · rw [hq]
      have h1 : r ∈ (db.filter
          (fun r => !(iso_delete_pred (formatISO today) r))).filter
          (fun r => py_side_pred today r) := List.mem_filter.mpr ⟨hr, hq⟩
      have h2 : r.id ∈ ((db.filter
          (fun r => !(iso_delete_pred (formatISO today) r))).filter
          (fun r => py_side_pred today r)).map (fun r => r.id) :=
        List.mem_map.mpr ⟨r, h1, rfl⟩
      simpa [List.contains, List.elem_iff] using h2
    · have hnot : r.id ∉ ((db.filter
          (fun r => !(iso_delete_pred (formatISO today) r))).filter
          (fun r => py_side_pred today r)).map (fun r => r.id) := by
        intro hmemid
        obtain ⟨r', hr', hid⟩ := List.mem_map.mp hmemid
        have hr'2 := List.mem_filter.mp hr'
        have hrdb : r ∈ db := (List.mem_filter.mp hr).1
        have hr'db : r' ∈ db := (List.mem_filter.mp hr'2.1).1
        have heq : r' = r := List.inj_on_of_nodup_map hnd hr'db hrdb hid
        rw [heq] at hr'2
        exact hq hr'2.2
      rw [Bool.eq_false_iff.mpr hq]
      simpa [List.contains, List.elem_iff] using hnot
  refine Prod.ext ?_ ?_
  · show db.countP (fun r => iso_delete_pred (formatISO today) r) +
      (((db.filter (fun r => !(iso_delete_pred (formatISO today) r))).filter
        (fun r => py_side_pred today r)).map (fun r => r.id)).length =
      (db.filter (fun r => code_expired today r)).length
    rw [List.length_map, ← List.countP_eq_length_filter,
      ← List.countP_eq_length_filter, List.countP_filter]
    have hc : db.countP (fun r => code_expired today r) =
        db.countP (fun r => iso_delete_pred (formatISO today) r ||
          py_side_pred today r) :=
      List.countP_congr (fun r _ => by rw [code_expired_split])
    rw [hc, countP_or_split]
  · show (db.filter (fun r => !(iso_delete_pred (formatISO today) r))).filter
      (fun r => !((((db.filter (fun r => !(iso_delete_pred (formatISO today) r))).filter
        (fun r => py_side_pred today r)).map (fun r => r.id)).contains r.id)) =
      db.filter (fun r => !(code_expired today r))
    rw [List.filter_filter]
    refine List.filter_congr ?_
    intro r hrdb
    by_cases hp : iso_delete_pred (formatISO today) r = true
    · simp [hp, code_expired_split, hp]
    · have hr1 : r ∈ db.filter (fun r => !(iso_delete_pred (formatISO today) r)) :=
        List.mem_filter.mpr ⟨hrdb, by simp [Bool.eq_false_iff.mpr hp]⟩
      rw [hmem r hr1]
      simp [code_expired_split, Bool.eq_false_iff.mpr hp]

/-- A 'new' row due yesterday (relative to today0 = 2026-10-12). -/
def rowC4_new : DBRow :=
  { id := 1,
    opp := { title := "t", source := "s", source_url := "u",
             due_date := "2026-10-11" },
    created_at := "", updated_at := "" }

/-- The same listing but already acted on (status 'bid'). -/
def rowC4_bid : DBRow :=
  { id := 2,
    opp := { title := "t", source := "s2", source_url := "u",
             due_date := "2026-10-11", status := "bid" },
    created_at := "", updated_at := "" }

theorem C4_remove_expired_amended_witness :
    ([rowC4_new, rowC4_bid].map (fun r => r.id)).Nodup ∧
    remove_expired today0 [rowC4_new, rowC4_bid] =
      (([rowC4_new, rowC4_bid].filter (fun r => code_expired today0 r)).length,
        [rowC4_new, rowC4_bid].filter (fun r => !(code_expired today0 r))) ∧
    remove_expired today0 [rowC4_new, rowC4_bid] = (1, [rowC4_bid]) :=
  ⟨by decide, C4_remove_expired_amended today0 [rowC4_new, rowC4_bid] (by decide),
    by decide⟩

/-! ## C5: cross-source deduplication (models.py BidDatabase.deduplicate)

deduplicate consumes the rows of
SELECT id, title, source, relevance_score ... ORDER BY relevance_score
DESC; the rows argument below is that query result, so the theorems
assume it is sorted by score descending (and that ids are unique, as the
primary key guarantees). -/

/-- The normalized title of a row. -/
def title_norm (r : DBRow) : List Char := BidDatabase.normalize_title r.opp.title

/-- Membership of a normalized title in the seen set (Python: norm in seen). -/
def seenMem (t : List Char) : List (List Char) → Bool
  | [] => false
  | s :: rest => s == t || seenMem t rest

/-- The loop of deduplicate: seen is the set of already-kept normalized
titles, the result the ids to delete (in row order). -/
def dedup_pass (seen : List (List Char)) : List DBRow → List Nat
  | [] => []
  | r :: rest =>
    if (title_norm r).length < 20 then dedup_pass seen rest
    else if seenMem (title_norm r) seen then r.id :: dedup_pass seen rest
    else dedup_pass (title_norm r :: seen) rest

/-- The same recursion returning the deleted rows themselves. -/
def dedup_del_rows (seen : List (List Char)) : List DBRow → List DBRow
  | [] => []
  | r :: rest =>
    if (title_norm r).length < 20 then dedup_del_rows seen rest
    else if seenMem (title_norm r) seen then r :: dedup_del_rows seen rest
    else dedup_del_rows (title_norm r :: seen) rest

/-- models.py BidDatabase.deduplicate: collect the ids to delete over the
score-descending rows, delete them, return the count (and, in this
embedding, the surviving rows). -/
def deduplicate (rows : List DBRow) : Nat × List DBRow :=
  let to_delete := dedup_pass [] rows
  (to_delete.length, rows.filter (fun r => !(to_delete.contains r.id)))

theorem dedup_pass_eq_map (seen : List (List Char)) :
    ∀ rows, dedup_pass seen rows = (dedup_del_rows seen rows).map (fun r => r.id) := by
  intro rows
  induction rows generalizing seen with
  | nil => rfl
  | cons r rest ih =>
    unfold dedup_pass dedup_del_rows
    split_ifs with h1 h2
    · exact ih seen
    · simp [ih seen]
    · exact ih _

theorem dedup_del_rows_sublist (seen : List (List Char)) :
    ∀ rows, (dedup_del_rows seen rows).Sublist rows := by
  intro rows
  induction rows generalizing seen with
  | nil => exact .slnil
  | cons r rest ih =>
    unfold dedup_del_rows
    split_ifs with h1 h2
    · exact (ih seen).cons r
    · exact (ih seen).cons₂ r
    · exact (ih _).cons r

theorem dedup_del_rows_long (seen : List (List Char)) :
    ∀ rows r, r ∈ dedup_del_rows seen rows → 20 ≤ (title_norm r).length := by
  intro rows
  induction rows generalizing seen with
  | nil => intro r h; cases h
  | cons r0 rest ih =>
    intro r h
    unfold dedup_del_rows at h
    split_ifs at h with h1 h2
    · exact ih seen r h
    · rcases List.mem_cons.mp h with heq | hm
      · subst heq; omega
      · exact ih seen r hm
    · exact ih _ r h

theorem dedup_del_rows_filter_of_seen (t : List Char) (ht : 20 ≤ t.length) :
    ∀ (rows : List DBRow) (seen : List (List Char)), seenMem t seen = true →
      (dedup_del_rows seen rows).filter (fun r => title_norm r == t) =
        rows.filter (fun r => title_norm r == t) := by
  intro rows
  induction rows with
  | nil => intro seen _; rfl
  | cons r0 rest ih =>
    intro seen hseen
    unfold dedup_del_rows
    split_ifs with h1 h2
    · rw [ih seen hseen, List.filter_cons]
      by_cases hb : (title_norm r0 == t) = true
      · exfalso
        have := beq_iff_eq.mp hb
        rw [this] at h1
        omega
      · rw [if_neg (by simp [hb])]
    · rw [List.filter_cons, List.filter_cons]
      by_cases hb : (title_norm r0 == t) = true
      · rw [if_pos (by simp [hb]), if_pos (by simp [hb]), ih seen hseen]
      · rw [if_neg (by simp [hb]), if_neg (by simp [hb]), ih seen hseen]
    · have hne : (title_norm r0 == t) = false := by
        by_cases hb : (title_norm r0 == t) = true
        · exfalso
          have := beq_iff_eq.mp hb
          rw [this] at h2
          exact h2 hseen
        · simpa using hb
      rw [List.filter_cons, if_neg (by simp [hne])]
      exact ih (title_norm r0 :: seen) (by simp [seenMem, hseen])

theorem dedup_del_rows_filter_of_not_seen (t : List Char) (ht : 20 ≤ t.length) :
    ∀ (rows : List DBRow) (seen : List (List Char)), seenMem t seen = false →
      (dedup_del_rows seen rows).filter (fun r => title_norm r == t) =
        (rows.filter (fun r => title_norm r == t)).tail := by
  intro rows
  induction rows with
  | nil => intro seen _; rfl
  | cons r0 rest ih =>
    intro seen hseen
    unfold dedup_del_rows
    split_ifs with h1 h2
    · have hne : (title_norm r0 == t) = false := by
        by_cases hb : (title_norm r0 == t) = true
        · exfalso
          have := beq_iff_eq.mp hb
          rw [this] at h1
          omega
        · simpa using hb
      rw [ih seen hseen, List.filter_cons, if_neg (by simp [hne])]
    · have hne : (title_norm r0 == t) = false := by
        by_cases hb : (title_norm r0 == t) = true
        · exfalso
          rw [beq_iff_eq.mp hb] at h2
          rw [h2] at hseen
          cases hseen
        · simpa using hb
      rw [List.filter_cons, if_neg (by simp [hne]), List.filter_cons,
        if_neg (by simp [hne]), ih seen hseen]
    · by_cases hb : (title_norm r0 == t) = true
      · have heq : title_norm r0 = t := beq_iff_eq.mp hb
        rw [List.filter_cons, if_pos (by simp [hb]), List.tail_cons]
        rw [dedup_del_rows_filter_of_seen t ht rest (title_norm r0 :: seen)
          (by simp [seenMem, heq])]
      · have hne : (title_norm r0 == t) = false := by simpa using hb
        rw [List.filter_cons, if_neg (by simp [hne])]
        refine ih (title_norm r0 :: seen) ?_
        have htne : title_norm r0 ≠ t := by
          intro he
          rw [he] at hne
          simp at hne
        simp [seenMem, hseen, htne]

theorem length_filter_not_mem_sublist {α : Type} [DecidableEq α] :
    ∀ {d l : List α}, d.Sublist l → l.Nodup →
      (l.filter (fun x => !(decide (x ∈ d)))).length = l.length - d.length := by
  intro d l hsub
  induction hsub with
  | slnil => intro _; rfl
  | @cons d l a hsub ih =>
    intro hnd
    have hd := List.nodup_cons.mp hnd
    have had : a ∉ d := fun h => hd.1 (hsub.subset h)
    rw [List.filter_cons, if_pos (by simp [had]), List.length_cons, ih hd.2]
    have := hsub.length_le
    simp only [List.length_cons]
    omega
  | @cons₂ d l a hsub ih =>
    intro hnd
    have hd := List.nodup_cons.mp hnd
    rw [List.filter_cons, if_neg (by simp)]
    have hcong : ∀ x ∈ l, (!(decide (x ∈ a :: d))) = (!(decide (x ∈ d))) := by
      intro x hx
      have hxa : x ≠ a := fun he => hd.1 (he ▸ hx)
      simp [List.mem_cons, hxa]
    rw [List.filter_congr hcong, ih hd.2]
    simp only [List.length_cons]
    omega

theorem contains_dedup_ids (rows : List DBRow)
    (hnd : (rows.map (fun r => r.id)).Nodup) :
    ∀ r ∈ rows, ((dedup_pass [] rows).contains r.id) =
      decide (r ∈ dedup_del_rows [] rows) := by
  intro r hr
  rw [dedup_pass_eq_map]
  by_cases hm : r ∈ dedup_del_rows [] rows
  · have h2 : r.id ∈ (dedup_del_rows [] rows).map (fun r => r.id) :=
      List.mem_map.mpr ⟨r, hm, rfl⟩
    rw [decide_eq_true hm]
    simpa [List.contains, List.elem_iff] using h2
  · have h2 : r.id ∉ (dedup_del_rows [] rows).map (fun r => r.id) := by
      intro hmm
      obtain ⟨r', hr', hid⟩ := List.mem_map.mp hmm
      have hr'rows : r' ∈ rows := (dedup_del_rows_sublist [] rows).subset hr'
      have : r' = r := List.inj_on_of_nodup_map hnd hr'rows hr hid
      exact hm (this ▸ hr')
    rw [decide_eq_false hm]
    simpa [List.contains, List.elem_iff] using h2

/-- C5: over score-descending rows with unique ids, deduplicate keeps
exactly one row per normalized-title group of length at least 20 — one of
maximal relevance_score in the group — and deletes the others, returning
the number of deleted rows (so the row count decreases by exactly the
returned count, i.e. group size minus one per group); rows whose
normalized title is shorter than 20 are never deleted. -/
theorem C5_deduplicate_keeps_highest (rows : List DBRow)
    (hs : rows.Pairwise (fun a b => b.opp.relevance_score ≤ a.opp.relevance_score))
    (hnd : (rows.map (fun r => r.id)).Nodup) :
    ((deduplicate rows).2.length + (deduplicate rows).1 = rows.length) ∧
    (∀ r ∈ rows, (title_norm r).length < 20 → r ∈ (deduplicate rows).2) ∧
    (∀ t : List Char, 20 ≤ t.length →
      rows.filter (fun r => title_norm r == t) ≠ [] →
      ((deduplicate rows).2.filter (fun r => title_norm r == t)).length = 1 ∧
      (∀ keep ∈ (deduplicate rows).2.filter (fun r => title_norm r == t),
        ∀ q ∈ rows.filter (fun r => title_norm r == t),
          q.opp.relevance_score ≤ keep.opp.relevance_score)) := by
  have hrowsnd : rows.Nodup := List.Nodup.of_map _ hnd
  have hsurv : (deduplicate rows).2 =
      rows.filter (fun r => !(decide (r ∈ dedup_del_rows [] rows))) := by
    show rows.filter (fun r => !((dedup_pass [] rows).contains r.id)) = _
    exact List.filter_congr (fun r hr => by rw [contains_dedup_ids rows hnd r hr])
  have hcount : (deduplicate rows).1 = (dedup_del_rows [] rows).length := by
    show (dedup_pass [] rows).length = _
    rw [dedup_pass_eq_map]
    exact List.length_map _ _
  refine ⟨?_, ?_, ?_⟩
  · rw [hsurv, hcount,
      length_filter_not_mem_sublist (dedup_del_rows_sublist [] rows) hrowsnd]
    have := (dedup_del_rows_sublist [] rows).length_le
    omega
  · intro r hr hshort
    rw [hsurv]
    refine List.mem_filter.mpr ⟨hr, ?_⟩
    have hnm : r ∉ dedup_del_rows [] rows := by
      intro hm
      have := dedup_del_rows_long [] rows r hm
      omega
    simp [hnm]
  · intro t ht hne
    obtain ⟨g0, grest, hG⟩ : ∃ g0 grest,
        rows.filter (fun r => title_norm r == t) = g0 :: grest := by
      rcases hq : rows.filter (fun r => title_norm r == t) with _ | ⟨a, b⟩
      · exact absurd hq hne
      · exact ⟨a, b, rfl⟩
    have hBfilter : (dedup_del_rows [] rows).filter
        (fun r => title_norm r == t) = grest := by
      rw [dedup_del_rows_filter_of_not_seen t ht rows [] rfl, hG, List.tail_cons]
    have hGnodup : (g0 :: grest).Nodup := hG ▸ (hrowsnd.filter _)
    have hg0 : g0 ∉ dedup_del_rows [] rows := by
      intro hm
      have hg0G : g0 ∈ rows.filter (fun r => title_norm r == t) := by
        rw [hG]
        exact List.mem_cons_self _ _
      have hg0t : (title_norm g0 == t) = true := (List.mem_filter.mp hg0G).2
      have : g0 ∈ (dedup_del_rows [] rows).filter (fun r => title_norm r == t) :=
        List.mem_filter.mpr ⟨hm, hg0t⟩
      rw [hBfilter] at this
      exact (List.nodup_cons.mp hGnodup).1 this
    have hrest : ∀ x ∈ grest, x ∈ dedup_del_rows [] rows := by
      intro x hx
      have : x ∈ (dedup_del_rows [] rows).filter (fun r => title_norm r == t) := by
        rw [hBfilter]
        exact hx
      exact (List.mem_filter.mp this).1
    have hsurvG : (deduplicate rows).2.filter (fun r => title_norm r == t) = [g0] := by
      rw [hsurv, List.filter_filter]
      have hcomm : ∀ r ∈ rows,
          ((title_norm r == t) && !(decide (r ∈ dedup_del_rows [] rows))) =
            ((!(decide (r ∈ dedup_del_rows [] rows))) && (title_norm r == t)) :=
        fun r _ => Bool.and_comm _ _
      rw [List.filter_congr hcomm, ← List.filter_filter, hG, List.filter_cons,
        if_pos (by simp [hg0])]
      have hrestnil : grest.filter
          (fun r => !(decide (r ∈ dedup_del_rows [] rows))) = [] := by
        rw [List.filter_eq_nil_iff]
        intro x hx
        simp [hrest x hx]
      rw [hrestnil]
    refine ⟨by rw [hsurvG]; rfl, ?_⟩
    intro keep hkeep q hq
    rw [hsurvG] at hkeep
    have hkeq : keep = g0 := by simpa using hkeep
    have hGsorted : (g0 :: grest).Pairwise
        (fun a b => b.opp.relevance_score ≤ a.opp.relevance_score) :=
      hG ▸ (hs.filter _)
    rw [hG] at hq
    rcases List.mem_cons.mp hq with hq1 | hq2
    · rw [hkeq, hq1]
    · rw [hkeq]
      exact (List.pairwise_cons.mp hGsorted).1 q hq2

/-- The same solicitation scraped from two sources, scores 65 and 40. -/
def rowC5_high : DBRow :=
  { id := 1,
    opp := { title := "Waterproofing and Building Envelope Repair",
             source := "eva", source_url := "u1", relevance_score := 65 },
    created_at := "", updated_at := "" }

def rowC5_low : DBRow :=
  { id := 2,
    opp := { title := "Waterproofing And Building Envelope Repair!",
             source := "fairfax_county", source_url := "u2",
             relevance_score := 40 },
    created_at := "", updated_at := "" }

theorem C5_deduplicate_keeps_highest_witness :
    ([rowC5_high, rowC5_low].Pairwise
      (fun a b : DBRow => b.opp.relevance_score ≤ a.opp.relevance_score)) ∧
    (([rowC5_high, rowC5_low].map (fun r => r.id)).Nodup) ∧
    ((deduplicate [rowC5_high, rowC5_low]).2.length +
      (deduplicate [rowC5_high, rowC5_low]).1 = 2) ∧
    ((deduplicate [rowC5_high, rowC5_low]).2.filter
      (fun r => title_norm r == title_norm rowC5_high)).length = 1 ∧
    (deduplicate [rowC5_high, rowC5_low]).2 = [rowC5_high] ∧
    (deduplicate [rowC5_high, rowC5_low]).1 = 1 := by
  have H := C5_deduplicate_keeps_highest [rowC5_high, rowC5_low]
    (by decide) (by decide)
  refine ⟨by decide, by decide, H.1, ?_, by decide, by decide⟩
  exact (H.2.2 (title_norm rowC5_high) (by decide) (by decide)).1

/-! ## C10: to_dict / from_dict round trip (models.py BidOpportunity)

to_dict JSON-encodes the three list fields (json.dumps with default
settings: ensure_ascii, ", " item separator); from_dict decodes them with
json.loads.  The lists this pipeline stores hold strings, so the model
implements the JSON array-of-strings fragment.  The decoder rejects a
lone surrogate escape, which CPython's str type can represent but Lean's
Char cannot; no dumps output contains one. -/

/-- Lowercase hex digit (Python %04x formatting). -/
def hexDigit (n : Nat) : Char :=
  if n < 10 then Char.ofNat (48 + n) else Char.ofNat (87 + n)

/-- Four-digit lowercase hex rendering of n < 0x10000. -/
def hex4 (n : Nat) : List Char :=
  [hexDigit (n / 4096 % 16), hexDigit (n / 256 % 16),
   hexDigit (n / 16 % 16), hexDigit (n % 16)]

/-- json.dumps escaping of one character (ensure_ascii=True): the two
JSON specials, the five short escapes, verbatim printable ASCII, and
backslash-u escapes (surrogate pairs beyond the BMP) for the rest. -/
def encChar (c : Char) : List Char :=
  if c == '\\' then ['\\', '\\']
  else if c == '"' then ['\\', '"']
  else if c.toNat == 8 then ['\\', 'b']
  else if c.toNat == 12 then ['\\', 'f']
  else if c.toNat == 10 then ['\\', 'n']
  else if c.toNat == 13 then ['\\', 'r']
  else if c.toNat == 9 then ['\\', 't']
  else if c.toNat < 32 || 126 < c.toNat then
    if c.toNat < 65536 then '\\' :: 'u' :: hex4 c.toNat
    else
      ('\\' :: 'u' :: hex4 (55296 + (c.toNat - 65536) / 1024)) ++
      ('\\' :: 'u' :: hex4 (56320 + (c.toNat - 65536) % 1024))
  else [c]

/-- Encoded body of a JSON string. -/
def encStrBody : List Char → List Char
  | [] => []
  | c :: rest => encChar c ++ encStrBody rest

/-- json.dumps of one string: quoted escaped body. -/
def json_dumps_str (s : String) : List Char :=
  '"' :: (encStrBody s.data ++ ['"'])

/-- The comma-space separated items of json.dumps of a list. -/
def dumpsItems : List String → List Char
  | [] => []
  | [x] => json_dumps_str x
  | x :: y :: xs => json_dumps_str x ++ ',' :: ' ' :: dumpsItems (y :: xs)

/-- json.dumps of a list of strings. -/
def json_dumps (l : List String) : String :=
  ⟨'[' :: (dumpsItems l ++ [']'])⟩

/-- JSON whitespace accepted between tokens by json.loads. -/
def jsonWs (c : Char) : Bool :=
  c == ' ' || c == Char.ofNat 9 || c == Char.ofNat 10 || c == Char.ofNat 13

/-- Hex digit value (loads accepts both cases). -/
def parseHex (c : Char) : Option Nat :=
  if '0' ≤ c && c ≤ '9' then some (c.toNat - 48)
  else if 'a' ≤ c && c ≤ 'f' then some (c.toNat - 87)
  else if 'A' ≤ c && c ≤ 'F' then some (c.toNat - 55)
  else none

/-- Prepend a decoded character to a string-body parse result. -/
def consFst (c : Char) : Option (List Char × List Char) → Option (List Char × List Char)
  | none => none
  | some (s, r) => some (c :: s, r)

/-- Value of a four-hex-digit escape. -/
def parseU (h1 h2 h3 h4 : Char) : Option Nat :=
  match parseHex h1, parseHex h2, parseHex h3, parseHex h4 with
  | some a, some b, some c, some d => some (4096 * a + 256 * b + 16 * c + d)
  | _, _, _, _ => none

/-- json.loads string-body scanner (strict mode): ends at the closing
quote, decodes the short escapes and backslash-u (combining surrogate
pairs), rejects raw control characters, invalid escapes, and (a point
where CPython instead produces a lone-surrogate str, unrepresentable in
Char) unpaired surrogate escapes.  The fuel argument only bounds the
recursion depth; every step consumes at least one input character, so
fuel equal to the input length (supplied by the wrapper below) never
runs out. -/
def parseStrBodyAux : Nat → List Char → Option (List Char × List Char)
  | 0, _ => none
  | fuel + 1, l =>
    match l with
    | [] => none
    | c :: rest =>
      if c == '"' then some ([], rest)
      else if c == '\\' then
        match rest with
        | [] => none
        | e :: r =>
          if e == '"' then consFst '"' (parseStrBodyAux fuel r)
          else if e == '\\' then consFst '\\' (parseStrBodyAux fuel r)
          else if e == '/' then consFst '/' (parseStrBodyAux fuel r)
          else if e == 'b' then consFst (Char.ofNat 8) (parseStrBodyAux fuel r)
          else if e == 'f' then consFst (Char.ofNat 12) (parseStrBodyAux fuel r)
          else if e == 'n' then consFst (Char.ofNat 10) (parseStrBodyAux fuel r)
          else if e == 'r' then consFst (Char.ofNat 13) (parseStrBodyAux fuel r)
          else if e == 't' then consFst (Char.ofNat 9) (parseStrBodyAux fuel r)
          else if e == 'u' then
            match r with
            | g1 :: g2 :: g3 :: g4 :: r3 =>
              (match parseU g1 g2 g3 g4 with
               | none => none
               | some n =>
                 if 55296 ≤ n ∧ n ≤ 56319 then
                   match r3 with
                   | k1 :: k2 :: k3 :: k4 :: k5 :: k6 :: r4 =>
                     if k1 == '\\' && k2 == 'u' then
                       (match parseU k3 k4 k5 k6 with
                        | none => none
                        | some m =>
                          if 56320 ≤ m ∧ m ≤ 57343 then
                            consFst (Char.ofNat (65536 + (n - 55296) * 1024 +
                              (m - 56320))) (parseStrBodyAux fuel r4)
                          else none)
                     else none
                   | _ => none
                 else if 56320 ≤ n ∧ n ≤ 57343 then none
                 else consFst (Char.ofNat n) (parseStrBodyAux fuel r3))
            | _ => none
          else none
      else if c.toNat < 32 then none
      else consFst c (parseStrBodyAux fuel rest)

def parseStrBody (l : List Char) : Option (List Char × List Char) :=
  parseStrBodyAux l.length l

/-- Parse one quoted JSON string. -/
def parseJsonStr : List Char → Option (List Char × List Char)
  | '"' :: rest => parseStrBody rest
  | _ => none

/-- Parse the comma-separated items after the opening bracket (fuel
bounds the number of items; the input length always suffices). -/
def parseItemsAux : Nat → List Char → Option (List String × List Char)
  | 0, _ => none
  | fuel + 1, s =>
    match parseJsonStr s with
    | none => none
    | some (str, rest) =>
      match rest.dropWhile jsonWs with
      | ']' :: rest2 => some ([String.mk str], rest2)
      | ',' :: rest2 =>
        match parseItemsAux fuel (rest2.dropWhile jsonWs) with
        | some (strs, r) => some (String.mk str :: strs, r)
        | none => none
      | _ => none

/-- json.loads of a JSON array of strings (any other document: none,
modelling the raised ValueError / unsupported shape). -/
def json_loads (s : String) : Option (List String) :=
  match s.data.dropWhile jsonWs with
  | '[' :: rest =>
    match rest.dropWhile jsonWs with
    | ']' :: rest2 => if (rest2.dropWhile jsonWs).isEmpty then some [] else none
    | r1 =>
      match parseItemsAux s.data.length r1 with
      | some (strs, rest2) =>
        if (rest2.dropWhile jsonWs).isEmpty then some strs else none
      | none => none
  | _ => none

/-- A Char is never a surrogate code point. -/
theorem char_not_surrogate (c : Char) : c.toNat < 55296 ∨ 57343 < c.toNat := by
  rcases c.valid with h | ⟨h1, _⟩
  · exact Or.inl h
  · exact Or.inr h1

/-- A Char is below 0x110000. -/
theorem char_lt_max (c : Char) : c.toNat < 1114112 := by
  have he : c.toNat = c.val.toNat := rfl
  rcases c.valid with h | ⟨_, h2⟩
  · omega
  · omega

theorem parseHex_hexDigit (k : Nat) (h : k < 16) : parseHex (hexDigit k) = some k := by
  interval_cases k <;> decide


theorem parseU_hex4 (n : Nat) (h : n < 65536) :
    parseU (hexDigit (n / 4096 % 16)) (hexDigit (n / 256 % 16))
      (hexDigit (n / 16 % 16)) (hexDigit (n % 16)) = some n := by
  unfold parseU
  rw [parseHex_hexDigit _ (Nat.mod_lt _ (by norm_num)),
    parseHex_hexDigit _ (Nat.mod_lt _ (by norm_num)),
    parseHex_hexDigit _ (Nat.mod_lt _ (by norm_num)),
    parseHex_hexDigit _ (Nat.mod_lt _ (by norm_num))]
  show some (4096 * (n / 4096 % 16) + 256 * (n / 256 % 16) +
    16 * (n / 16 % 16) + n % 16) = some n
  exact congrArg some (by omega)

theorem parseStrBodyAux_u (f : Nat) (g1 g2 g3 g4 : Char) (y : List Char) :
    parseStrBodyAux (f + 1) ('\\' :: 'u' :: g1 :: g2 :: g3 :: g4 :: y) =
      (match parseU g1 g2 g3 g4 with
       | none => none
       | some n =>
         if 55296 ≤ n ∧ n ≤ 56319 then
           match y with
           | k1 :: k2 :: k3 :: k4 :: k5 :: k6 :: r4 =>
             if k1 == '\\' && k2 == 'u' then
               (match parseU k3 k4 k5 k6 with
                | none => none
                | some m =>
                  if 56320 ≤ m ∧ m ≤ 57343 then
                    consFst (Char.ofNat (65536 + (n - 55296) * 1024 + (m - 56320)))
                      (parseStrBodyAux f r4)
                  else none)
             else none
           | _ => none
         else if 56320 ≤ n ∧ n ≤ 57343 then none
         else consFst (Char.ofNat n) (parseStrBodyAux f y)) := rfl

theorem parseStrBodyAux_other (f : Nat) (c : Char) (y : List Char)
    (hq : (c == '"') = false) (hb : (c == '\\') = false) :
    parseStrBodyAux (f + 1) (c :: y) =
      if c.toNat < 32 then none else consFst c (parseStrBodyAux f y) := by
  simp only [parseStrBodyAux]
  rw [if_neg (by simp [hq]), if_neg (by simp [hb])]

theorem parseStrBodyAux_encChar (c : Char) (f : Nat) (y s rest : List Char)
    (hy : parseStrBodyAux f y = some (s, rest)) :
    parseStrBodyAux (f + 1) (encChar c ++ y) = some (c :: s, rest) := by
  by_cases h1 : c = '\\'
  · subst h1
    rw [show encChar '\\' ++ y = '\\' :: '\\' :: y from rfl,
      show parseStrBodyAux (f + 1) ('\\' :: '\\' :: y) =
        consFst '\\' (parseStrBodyAux f y) from rfl, hy]
    rfl
  by_cases h2 : c = '"'
  · subst h2
    rw [show encChar '"' ++ y = '\\' :: '"' :: y from rfl,
      show parseStrBodyAux (f + 1) ('\\' :: '"' :: y) =
        consFst '"' (parseStrBodyAux f y) from rfl, hy]
    rfl
  by_cases h3 : c.toNat = 8
  · have hc : c = Char.ofNat 8 := by rw [← Char.ofNat_toNat c, h3]
    subst hc
    rw [show encChar (Char.ofNat 8) ++ y = '\\' :: 'b' :: y from rfl,
      show parseStrBodyAux (f + 1) ('\\' :: 'b' :: y) =
        consFst (Char.ofNat 8) (parseStrBodyAux f y) from rfl, hy]
    rfl
  by_cases h4 : c.toNat = 12
  · have hc : c = Char.ofNat 12 := by rw [← Char.ofNat_toNat c, h4]
    subst hc
    rw [show encChar (Char.ofNat 12) ++ y = '\\' :: 'f' :: y from rfl,
      show parseStrBodyAux (f + 1) ('\\' :: 'f' :: y) =
        consFst (Char.ofNat 12) (parseStrBodyAux f y) from rfl, hy]
    rfl
  by_cases h5 : c.toNat = 10
  · have hc : c = Char.ofNat 10 := by rw [← Char.ofNat_toNat c, h5]
    subst hc
    rw [show encChar (Char.ofNat 10) ++ y = '\\' :: 'n' :: y from rfl,
      show parseStrBodyAux (f + 1) ('\\' :: 'n' :: y) =
        consFst (Char.ofNat 10) (parseStrBodyAux f y) from rfl, hy]
    rfl
  by_cases h6 : c.toNat = 13
  · have hc : c = Char.ofNat 13 := by rw [← Char.ofNat_toNat c, h6]
    subst hc
    rw [show encChar (Char.ofNat 13) ++ y = '\\' :: 'r' :: y from rfl,
      show parseStrBodyAux (f + 1) ('\\' :: 'r' :: y) =
        consFst (Char.ofNat 13) (parseStrBodyAux f y) from rfl, hy]
    rfl
  by_cases h7 : c.toNat = 9
  · have hc : c = Char.ofNat 9 := by rw [← Char.ofNat_toNat c, h7]
    subst hc
    rw [show encChar (Char.ofNat 9) ++ y = '\\' :: 't' :: y from rfl,
      show parseStrBodyAux (f + 1) ('\\' :: 't' :: y) =
        consFst (Char.ofNat 9) (parseStrBodyAux f y) from rfl, hy]
    rfl
  have hb1 : (c == '\\') = false := by
    simp only [beq_eq_false_iff_ne, ne_eq]
    exact h1
  have hq1 : (c == '"') = false := by
    simp only [beq_eq_false_iff_ne, ne_eq]
    exact h2
  have hn3 : (c.toNat == 8) = false := by
    simp only [beq_eq_false_iff_ne, ne_eq]
    exact h3
  have hn4 : (c.toNat == 12) = false := by
    simp only [beq_eq_false_iff_ne, ne_eq]
    exact h4
  have hn5 : (c.toNat == 10) = false := by
    simp only [beq_eq_false_iff_ne, ne_eq]
    exact h5
  have hn6 : (c.toNat == 13) = false := by
    simp only [beq_eq_false_iff_ne, ne_eq]
    exact h6
  have hn7 : (c.toNat == 9) = false := by
    simp only [beq_eq_false_iff_ne, ne_eq]
    exact h7
  by_cases h8 : c.toNat < 32 ∨ 126 < c.toNat
  · have hcls : (decide (c.toNat < 32) || decide (126 < c.toNat)) = true := by
      rcases h8 with h | h <;> simp [h]
    by_cases h9 : c.toNat < 65536
    · have henc : encChar c = '\\' :: 'u' :: hex4 c.toNat := by
        unfold encChar
        rw [if_neg (by simp [hb1]), if_neg (by simp [hq1]), if_neg (by simp [hn3]),
          if_neg (by simp [hn4]), if_neg (by simp [hn5]), if_neg (by simp [hn6]),
          if_neg (by simp [hn7]), if_pos (by simp [hcls]), if_pos h9]
      rw [show encChar c ++ y = '\\' :: 'u' :: hexDigit (c.toNat / 4096 % 16) ::
        hexDigit (c.toNat / 256 % 16) :: hexDigit (c.toNat / 16 % 16) ::
        hexDigit (c.toNat % 16) :: y from by rw [henc]; rfl]
      rw [parseStrBodyAux_u, parseU_hex4 c.toNat h9]
      dsimp only
      rw [if_neg (by rcases char_not_surrogate c with hv | hv <;> omega),
        if_neg (by rcases char_not_surrogate c with hv | hv <;> omega),
        hy, Char.ofNat_toNat]
      rfl
    · have hmax := char_lt_max c
      have hge : 65536 ≤ c.toNat := by omega
      have henc : encChar c = ('\\' :: 'u' :: hex4 (55296 + (c.toNat - 65536) / 1024)) ++
          ('\\' :: 'u' :: hex4 (56320 + (c.toNat - 65536) % 1024)) := by
        unfold encChar
        rw [if_neg (by simp [hb1]), if_neg (by simp [hq1]), if_neg (by simp [hn3]),
          if_neg (by simp [hn4]), if_neg (by simp [hn5]), if_neg (by simp [hn6]),
          if_neg (by simp [hn7]), if_pos (by simp [hcls]), if_neg h9]
      rw [show encChar c ++ y =
        '\\' :: 'u' :: hexDigit ((55296 + (c.toNat - 65536) / 1024) / 4096 % 16) ::
        hexDigit ((55296 + (c.toNat - 65536) / 1024) / 256 % 16) ::
        hexDigit ((55296 + (c.toNat - 65536) / 1024) / 16 % 16) ::
        hexDigit ((55296 + (c.toNat - 65536) / 1024) % 16) ::
        ('\\' :: 'u' :: hexDigit ((56320 + (c.toNat - 65536) % 1024) / 4096 % 16) ::
        hexDigit ((56320 + (c.toNat - 65536) % 1024) / 256 % 16) ::
        hexDigit ((56320 + (c.toNat - 65536) % 1024) / 16 % 16) ::
        hexDigit ((56320 + (c.toNat - 65536) % 1024) % 16) :: y) from by
          rw [henc]; rfl]
      rw [parseStrBodyAux_u, parseU_hex4 (55296 + (c.toNat - 65536) / 1024) (by omega)]
      dsimp only
      rw [if_pos (by constructor <;> omega)]
      rw [if_pos (by decide), parseU_hex4 (56320 + (c.toNat - 65536) % 1024) (by omega)]
      dsimp only
      rw [if_pos (by constructor <;> omega)]
      rw [show 65536 + (55296 + (c.toNat - 65536) / 1024 - 55296) * 1024 +
        (56320 + (c.toNat - 65536) % 1024 - 56320) = c.toNat from by omega]
      rw [Char.ofNat_toNat, hy]
      rfl
  · have hcls : (decide (c.toNat < 32) || decide (126 < c.toNat)) = false := by
      push_neg at h8
      simp only [Bool.or_eq_false_iff, decide_eq_false_iff_not]
      exact ⟨by omega, by omega⟩
    have henc : encChar c = [c] := by
      unfold encChar
      rw [if_neg (by simp [hb1]), if_neg (by simp [hq1]), if_neg (by simp [hn3]),
        if_neg (by simp [hn4]), if_neg (by simp [hn5]), if_neg (by simp [hn6]),
        if_neg (by simp [hn7]), if_neg (by simp [hcls])]
    rw [show encChar c ++ y = c :: y from by rw [henc]; rfl]
    rw [parseStrBodyAux_other f c y hq1 hb1]
    push_neg at h8
    rw [if_neg (by omega), hy]
    rfl

theorem parseStrBodyAux_enc (s : List Char) :
    ∀ (fuel : Nat) (rest : List Char), s.length < fuel →
      parseStrBodyAux fuel (encStrBody s ++ '"' :: rest) = some (s, rest) := by
  induction s with
  | nil =>
    intro fuel rest h
    obtain ⟨f, rfl⟩ : ∃ f, fuel = f + 1 := ⟨fuel - 1, by omega⟩
    rfl
  | cons c s' ih =>
    intro fuel rest h
    obtain ⟨f, rfl⟩ : ∃ f, fuel = f + 1 := ⟨fuel - 1, by omega⟩
    rw [show encStrBody (c :: s') ++ '"' :: rest =
      encChar c ++ (encStrBody s' ++ '"' :: rest) from by
        rw [encStrBody, List.append_assoc]]
    refine parseStrBodyAux_encChar c f _ s' rest (ih f rest ?_)
    simp only [List.length_cons] at h
    omega

theorem one_le_encChar_length (c : Char) : 1 ≤ (encChar c).length := by
  unfold encChar
  split_ifs <;> simp

theorem le_encStrBody_length (s : List Char) : s.length ≤ (encStrBody s).length := by
  induction s with
  | nil => simp [encStrBody]
  | cons c s' ih =>
    rw [encStrBody, List.length_append, List.length_cons]
    have := one_le_encChar_length c
    omega

theorem parseJsonStr_dumps (x : String) (z : List Char) :
    parseJsonStr (json_dumps_str x ++ z) = some (x.data, z) := by
  rw [show json_dumps_str x ++ z = '"' :: (encStrBody x.data ++ '"' :: z) from by
    rw [json_dumps_str]; simp]
  show parseStrBody (encStrBody x.data ++ '"' :: z) = some (x.data, z)
  unfold parseStrBody
  refine parseStrBodyAux_enc x.data _ z ?_
  rw [List.length_append]
  have := le_encStrBody_length x.data
  simp only [List.length_cons]
  omega

theorem dropWhile_dumpsItems (l : List String) (h : l ≠ []) (z : List Char) :
    List.dropWhile jsonWs (dumpsItems l ++ z) = dumpsItems l ++ z := by
  cases l with
  | nil => exact absurd rfl h
  | cons x xs => cases xs <;> rfl

theorem parseItemsAux_dumps (l : List String) (hl : l ≠ []) :
    ∀ fuel, l.length ≤ fuel →
      parseItemsAux fuel (dumpsItems l ++ [']']) = some (l, []) := by
  induction l with
  | nil => exact absurd rfl hl
  | cons x xs ih =>
    intro fuel h
    obtain ⟨f, rfl⟩ : ∃ f, fuel = f + 1 :=
      ⟨fuel - 1, by simp only [List.length_cons] at h; omega⟩
    cases xs with
    | nil =>
      show parseItemsAux (f + 1) (json_dumps_str x ++ [']']) = some ([x], [])
      simp only [parseItemsAux]
      rw [parseJsonStr_dumps x [']']]
      rfl
    | cons y ys =>
      show parseItemsAux (f + 1)
        ((json_dumps_str x ++ ',' :: ' ' :: dumpsItems (y :: ys)) ++ [']']) =
        some (x :: y :: ys, [])
      rw [List.append_assoc, List.cons_append, List.cons_append]
      simp only [parseItemsAux]
      rw [parseJsonStr_dumps x (',' :: ' ' :: (dumpsItems (y :: ys) ++ [']']))]
      show (match parseItemsAux f
          (List.dropWhile jsonWs (' ' :: (dumpsItems (y :: ys) ++ [']']))) with
        | some (strs, r) => some (x :: strs, r)
        | none => none) = some (x :: y :: ys, [])
      have hdw : List.dropWhile jsonWs (' ' :: (dumpsItems (y :: ys) ++ [']'])) =
          dumpsItems (y :: ys) ++ [']'] := by
        rw [List.dropWhile_cons, if_pos (by decide)]
        exact dropWhile_dumpsItems (y :: ys) (by simp) [']']
      rw [hdw]
      rw [ih (by simp) f (by simp only [List.length_cons] at h ⊢; omega)]

theorem le_dumpsItems_length (l : List String) :
    l.length ≤ (dumpsItems l).length := by
  induction l with
  | nil => simp [dumpsItems]
  | cons x xs ih =>
    cases xs with
    | nil => simp [dumpsItems, json_dumps_str]
    | cons y ys =>
      rw [dumpsItems, List.length_append]
      simp only [List.length_cons] at ih ⊢
      simp only [json_dumps_str, List.length_cons]
      omega

theorem json_loads_dumps (l : List String) :
    json_loads (json_dumps l) = some l := by
  cases l with
  | nil => rfl
  | cons x xs =>
    have hbound : (x :: xs).length ≤ ('[' :: (dumpsItems (x :: xs) ++ [']'])).length := by
      have := le_dumpsItems_length (x :: xs)
      simp only [List.length_cons, List.length_append] at this ⊢
      omega
    have hitems := parseItemsAux_dumps (x :: xs) (by simp)
      ('[' :: (dumpsItems (x :: xs) ++ [']'])).length hbound
    cases xs with
    | nil =>
      have hr : json_loads (json_dumps [x]) =
          (match parseItemsAux ('[' :: (dumpsItems [x] ++ [']'])).length
            (dumpsItems [x] ++ [']']) with
           | some (strs, rest2) =>
             if (rest2.dropWhile jsonWs).isEmpty then some strs else none
           | none => none) := rfl
      rw [hr, hitems]
      rfl
    | cons y ys =>
      have hr : json_loads (json_dumps (x :: y :: ys)) =
          (match parseItemsAux ('[' :: (dumpsItems (x :: y :: ys) ++ [']'])).length
            (dumpsItems (x :: y :: ys) ++ [']']) with
           | some (strs, rest2) =>
             if (rest2.dropWhile jsonWs).isEmpty then some strs else none
           | none => none) := rfl
      rw [hr, hitems]
      rfl

/-! ## C10: BidOpportunity.to_dict / from_dict (models.py lines 74-86) -/

/-- The dict shape produced by BidOpportunity.to_dict: asdict(self) with the
three list fields (category_tags, keyword_matches, attachments) replaced by
their json.dumps serialization (models.py lines 74-79). -/
structure BidDict where
  title : String
  source : String
  source_url : String
  source_id : String
  description : String
  project_type : String
  naics_code : String
  category_tags : String
  location_city : String
  location_county : String
  location_state : String
  location_zip : String
  location_address : String
  estimated_value_min : Option Rat
  estimated_value_max : Option Rat
  budget_display : String
  posted_date : String
  due_date : String
  pre_bid_date : String
  project_start_date : String
  project_end_date : String
  contact_name : String
  contact_email : String
  contact_phone : String
  agency_name : String
  set_aside : String
  contract_type : String
  solicitation_type : String
  relevance_score : Int
  keyword_matches : String
  scraped_at : String
  status : String
  notes : String
  attachments : String
deriving DecidableEq

/-- BidOpportunity.to_dict (models.py lines 74-79): asdict copies every field;
the three list fields are then overwritten with json.dumps of the list. -/
def BidOpportunity.to_dict (b : BidOpportunity) : BidDict :=
  { title := b.title
    source := b.source
    source_url := b.source_url
    source_id := b.source_id
    description := b.description
    project_type := b.project_type
    naics_code := b.naics_code
    category_tags := json_dumps b.category_tags
    location_city := b.location_city
    location_county := b.location_county
    location_state := b.location_state
    location_zip := b.location_zip
    location_address := b.location_address
    estimated_value_min := b.estimated_value_min
    estimated_value_max := b.estimated_value_max
    budget_display := b.budget_display
    posted_date := b.posted_date
    due_date := b.due_date
    pre_bid_date := b.pre_bid_date
    project_start_date := b.project_start_date
    project_end_date := b.project_end_date
    contact_name := b.contact_name
    contact_email := b.contact_email
    contact_phone := b.contact_phone
    agency_name := b.agency_name
    set_aside := b.set_aside
    contract_type := b.contract_type
    solicitation_type := b.solicitation_type
    relevance_score := b.relevance_score
    keyword_matches := json_dumps b.keyword_matches
    scraped_at := b.scraped_at
    status := b.status
    notes := b.notes
    attachments := json_dumps b.attachments }

/-- BidOpportunity.from_dict (models.py lines 81-86): the three stringly
fields are json.loads-parsed (the dict coming from to_dict always holds
strings there), then the dataclass is rebuilt from the dict entries.
json.loads raising (invalid JSON / not a list of strings) is modelled
as none. -/
def BidOpportunity.from_dict (d : BidDict) : Option BidOpportunity :=
  match json_loads d.category_tags, json_loads d.keyword_matches,
      json_loads d.attachments with
  | some ct, some km, some att =>
    some { title := d.title
           source := d.source
           source_url := d.source_url
           source_id := d.source_id
           description := d.description
           project_type := d.project_type
           naics_code := d.naics_code
           category_tags := ct
           location_city := d.location_city
           location_county := d.location_county
           location_state := d.location_state
           location_zip := d.location_zip
           location_address := d.location_address
           estimated_value_min := d.estimated_value_min
           estimated_value_max := d.estimated_value_max
           budget_display := d.budget_display
           posted_date := d.posted_date
           due_date := d.due_date
           pre_bid_date := d.pre_bid_date
           project_start_date := d.project_start_date
           project_end_date := d.project_end_date
           contact_name := d.contact_name
           contact_email := d.contact_email
           contact_phone := d.contact_phone
           agency_name := d.agency_name
           set_aside := d.set_aside
           contract_type := d.contract_type
           solicitation_type := d.solicitation_type
           relevance_score := d.relevance_score
           keyword_matches := km
           scraped_at := d.scraped_at
           status := d.status
           notes := d.notes
           attachments := att }
  | _, _, _ => none

/-- C10: for every BidOpportunity b (whose list fields are lists of strings,
hence JSON-serializable), from_dict (to_dict b) reconstructs b exactly:
the serialization to the stored dict shape and back is a lossless
round-trip. -/
theorem C10_from_dict_to_dict_roundtrip (b : BidOpportunity) :
    BidOpportunity.from_dict (BidOpportunity.to_dict b) = some b := by
  simp only [BidOpportunity.to_dict, BidOpportunity.from_dict, json_loads_dumps]
